import Mathlib

/-!
Verification of the aitovideo backend core: URL parsing, metadata resolver
chains, the alternative-video finder's fuzzy acceptance gate, the video /
progress data model, and the canonical-progress resolver.

Strings are modelled as `List Char`; SQL tables as Lean lists of row
structures; network responses as explicit environment values passed to the
resolver functions (every catch-and-return-null in the source becomes an
`Option`-valued strategy).
-/

set_option allowUnsafeReducibility true

attribute [local semireducible] Rat.mul Rat.inv Rat.add Rat.sub

set_option maxRecDepth 10000

namespace Aito

/-- Convert a string literal to the character-list representation used
throughout this development. -/
def strL (s : String) : List Char := s.data

-- ───────────────────────── regex scanning primitives ─────────────────────────

/-- Match a literal character sequence at the front of `l`; on success return
the remainder. This models the literal parts of the source regexes. -/
def dropLit : List Char → List Char → Option (List Char)
  | [], l => some l
  | _ :: _, [] => none
  | a :: as, b :: bs => if a = b then dropLit as bs else none

/-- Try a list of literal alternatives at the front of `l`, in order (models a
regex alternation of literals). -/
def dropAnyLit : List (List Char) → List Char → Option (List Char)
  | [], _ => none
  | lit :: lits, l =>
    match dropLit lit l with
    | some r => some r
    | none => dropAnyLit lits l

/-- Take exactly `n` characters satisfying `p` from the front of `l` (models a
fixed-count character class such as `[a-zA-Z0-9_-]{11}`). -/
def takeCount (p : Char → Bool) : Nat → List Char → Option (List Char × List Char)
  | 0, l => some ([], l)
  | _ + 1, [] => none
  | n + 1, c :: l =>
    if p c then
      match takeCount p n l with
      | some (taken, rest) => some (c :: taken, rest)
      | none => none
    else none

/-- Maximal run of decimal digits at the front of `l` (models a greedy `\d*`). -/
def digitsRun : List Char → List Char × List Char
  | [] => ([], [])
  | c :: l =>
    if c.isDigit then
      let (ds, rest) := digitsRun l
      (c :: ds, rest)
    else ([], c :: l)

/-- Model of the regex fragment `(-?\d+)`: optional minus sign followed by a
non-empty maximal digit run; the captured text includes the sign. -/
def signedDigits (l : List Char) : Option (List Char × List Char) :=
  if l.head? = some '-' then
    match digitsRun l.tail with
    | ([], _) => none
    | (ds, rest2) => some ('-' :: ds, rest2)
  else
    match digitsRun l with
    | ([], _) => none
    | (ds, rest2) => some (ds, rest2)

/-- Run a match-at-position function at every position of `l` from the left and
return the first success — the semantics of an unanchored JS `String.match`. -/
def scan (f : List Char → Option α) : List Char → Option α
  | [] => f []
  | c :: l =>
    match f (c :: l) with
    | some r => some r
    | none => scan f (l : List Char)

-- ───────────────────────── character classes ─────────────────────────

/-- Character class `[a-zA-Z0-9_-]` of the YouTube id patterns. -/
def isIdChar (c : Char) : Bool :=
  (('a' ≤ c && c ≤ 'z') || ('A' ≤ c && c ≤ 'Z') || c.isDigit || c = '_' || c = '-')

/-- Character class `[a-f0-9]` of the Rutube id patterns. -/
def isHexLower (c : Char) : Bool :=
  (('a' ≤ c && c ≤ 'f') || c.isDigit)

/-- Characters that can appear after the host part of a recognized VK URL
(digits of the two capture groups, the sign, the joining underscore, and the
`&id=` separator of the embed form). None of the VK pattern literals can start
inside such a tail, which is what the normalization proofs use. -/
def vkTailChar (c : Char) : Bool :=
  c.isDigit || c = '-' || c = '_' || c = '&' || c = 'i' || c = 'd' || c = '='

-- ───────────────────────── services/parser.ts ─────────────────────────

/-- Video platform discriminator (`VideoPlatform` in `types/video.ts`). -/
inductive VideoPlatform where
  | youtube
  | rutube
  | vk
deriving DecidableEq, Repr

/-- Result shape of the URL parser (`ParsedVideoUrl` in `types/video.ts`). -/
structure ParsedVideoUrl where
  platform : VideoPlatform
  externalId : List Char
  url : List Char
deriving DecidableEq, Repr

/-- Match-at-position for the first YouTube pattern
`(?:youtube\.com\/watch\?v=|youtu\.be\/|youtube\.com\/embed\/)([a-zA-Z0-9_-]{11})`. -/
def ytPat1At (l : List Char) : Option (List Char) :=
  match dropAnyLit [strL "youtube.com/watch?v=", strL "youtu.be/", strL "youtube.com/embed/"] l with
  | some rest => (takeCount isIdChar 11 rest).map Prod.fst
  | none => none

/-- Match-at-position for `youtube\.com\/shorts\/([a-zA-Z0-9_-]{11})`. -/
def ytPat2At (l : List Char) : Option (List Char) :=
  match dropLit (strL "youtube.com/shorts/") l with
  | some rest => (takeCount isIdChar 11 rest).map Prod.fst
  | none => none

/-- Translation of `parseYouTubeUrl`: try the two patterns in order and build
the canonical watch URL from the captured 11-character id. -/
def parseYouTubeUrl (url : List Char) : Option ParsedVideoUrl :=
  match scan ytPat1At url with
  | some id => some ⟨.youtube, id, strL "https://youtube.com/watch?v=" ++ id⟩
  | none =>
    match scan ytPat2At url with
    | some id => some ⟨.youtube, id, strL "https://youtube.com/watch?v=" ++ id⟩
    | none => none

/-- Match-at-position for `rutube\.ru\/video\/([a-f0-9]{32})`. -/
def rtPat1At (l : List Char) : Option (List Char) :=
  match dropLit (strL "rutube.ru/video/") l with
  | some rest => (takeCount isHexLower 32 rest).map Prod.fst
  | none => none

/-- Match-at-position for `rutube\.ru\/play\/embed\/([a-f0-9]{32})`. -/
def rtPat2At (l : List Char) : Option (List Char) :=
  match dropLit (strL "rutube.ru/play/embed/") l with
  | some rest => (takeCount isHexLower 32 rest).map Prod.fst
  | none => none

/-- Translation of `parseRutubeUrl`. -/
def parseRutubeUrl (url : List Char) : Option ParsedVideoUrl :=
  match scan rtPat1At url with
  | some id => some ⟨.rutube, id, strL "https://rutube.ru/video/" ++ id ++ strL "/"⟩
  | none =>
    match scan rtPat2At url with
    | some id => some ⟨.rutube, id, strL "https://rutube.ru/video/" ++ id ++ strL "/"⟩
    | none => none

/-- Match-at-position for `vk\.com\/video(-?\d+)_(\d+)`: returns the pair of
capture groups (ownerId, videoId). -/
def vkPat1At (l : List Char) : Option (List Char × List Char) :=
  match dropLit (strL "vk.com/video") l with
  | some r1 =>
    match signedDigits r1 with
    | some (own, r2) =>
      match r2 with
      | '_' :: r3 =>
        match digitsRun r3 with
        | ([], _) => none
        | (vid, _) => some (own, vid)
      | _ => none
    | none => none
  | none => none

/-- Match-at-position for `vk\.com\/video_ext\.php\?oid=(-?\d+)&id=(\d+)`. -/
def vkPat2At (l : List Char) : Option (List Char × List Char) :=
  match dropLit (strL "vk.com/video_ext.php?oid=") l with
  | some r1 =>
    match signedDigits r1 with
    | some (own, r2) =>
      match dropLit (strL "&id=") r2 with
      | some r3 =>
        match digitsRun r3 with
        | ([], _) => none
        | (vid, _) => some (own, vid)
      | none => none
    | none => none
  | none => none

/-- Match-at-position for `vkvideo\.ru\/video(-?\d+)_(\d+)`. -/
def vkPat3At (l : List Char) : Option (List Char × List Char) :=
  match dropLit (strL "vkvideo.ru/video") l with
  | some r1 =>
    match signedDigits r1 with
    | some (own, r2) =>
      match r2 with
      | '_' :: r3 =>
        match digitsRun r3 with
        | ([], _) => none
        | (vid, _) => some (own, vid)
      | _ => none
    | none => none
  | none => none

/-- Build the `ParsedVideoUrl` the VK parser returns from the two capture
groups: composite external id `ownerId_videoId`. -/
def vkResult (own vid : List Char) : ParsedVideoUrl :=
  ⟨.vk, own ++ strL "_" ++ vid, strL "https://vk.com/video" ++ own ++ strL "_" ++ vid⟩

/-- Translation of `parseVkVideoUrl`: the three patterns in source order. -/
def parseVkVideoUrl (url : List Char) : Option ParsedVideoUrl :=
  match scan vkPat1At url with
  | some (own, vid) => some (vkResult own vid)
  | none =>
    match scan vkPat2At url with
    | some (own, vid) => some (vkResult own vid)
    | none =>
      match scan vkPat3At url with
      | some (own, vid) => some (vkResult own vid)
      | none => none

/-- Translation of `parseVideoUrl`: YouTube, then Rutube, then VK; `none` when
nothing matches. -/
def parseVideoUrl (url : List Char) : Option ParsedVideoUrl :=
  match parseYouTubeUrl url with
  | some r => some r
  | none =>
    match parseRutubeUrl url with
    | some r => some r
    | none =>
      match parseVkVideoUrl url with
      | some r => some r
      | none => none

/-- The same three parsers tried in the reverse priority order, used to state
that the priority order does not affect results on unambiguous inputs. -/
def parseVideoUrlRev (url : List Char) : Option ParsedVideoUrl :=
  match parseVkVideoUrl url with
  | some r => some r
  | none =>
    match parseRutubeUrl url with
    | some r => some r
    | none =>
      match parseYouTubeUrl url with
      | some r => some r
      | none => none

example : parseVideoUrl (strL "https://youtube.com/watch?v=abcdefghijk") =
    some ⟨.youtube, strL "abcdefghijk", strL "https://youtube.com/watch?v=abcdefghijk"⟩ := by
  decide

example : parseVideoUrl (strL "https://vk.com/video-123_456") =
    some ⟨.vk, strL "-123_456", strL "https://vk.com/video-123_456"⟩ := by
  decide

example : parseVideoUrl (strL "hello world") = none := by decide

-- ───────────────────── fuzzy-match helpers (routes/videos.ts) ─────────────────────

/-- Lower-casing as performed by JS `toLowerCase` on the alphabets the
normalizer's character class `[a-zа-яё0-9]` can retain: ASCII `A–Z`,
Cyrillic `А–Я` and `Ё`; all other characters are left unchanged (they are
replaced by spaces in the next step regardless of case). -/
def jsLower (c : Char) : Char :=
  if 'A' ≤ c && c ≤ 'Z' then Char.ofNat (c.toNat + 32)
  else if 'А' ≤ c && c ≤ 'Я' then Char.ofNat (c.toNat + 32)
  else if c = 'Ё' then 'ё'
  else c

/-- Character class `[a-zа-яё0-9]` kept by `normalizeForMatch`. -/
def isMatchKeep (c : Char) : Bool :=
  ('a' ≤ c && c ≤ 'z') || ('а' ≤ c && c ≤ 'я') || c = 'ё' || c.isDigit

/-- Split on spaces, discarding empty fragments (accumulator reversed on
emission). -/
def splitSpAux : List Char → List Char → List (List Char)
  | [], acc => if acc.isEmpty then [] else [acc.reverse]
  | ' ' :: rest, acc => if acc.isEmpty then splitSpAux rest [] else acc.reverse :: splitSpAux rest []
  | c :: rest, acc => splitSpAux rest (c :: acc)

/-- Non-empty space-separated fragments of `l`. -/
def splitSp (l : List Char) : List (List Char) := splitSpAux l []

/-- Join fragments with single spaces. -/
def joinSp : List (List Char) → List Char
  | [] => []
  | [w] => w
  | w :: ws => w ++ ' ' :: joinSp ws

/-- Translation of `normalizeForMatch`: lower-case, replace every character
outside `[a-zа-яё0-9]` by a space, collapse space runs, trim. -/
def normalizeForMatch (s : List Char) : List Char :=
  joinSp (splitSp ((s.map jsLower).map (fun c => if isMatchKeep c then c else ' ')))

/-- Translation of `tokenize`: split the normalized string on spaces and keep
words longer than 2 characters. -/
def tokenize (s : List Char) : List (List Char) :=
  (splitSp (normalizeForMatch s)).filter (fun w => w.length > 2)

/-- Inner loop of the Levenshtein DP row computation: walks the characters of
`b` with the previous row, threading `curr[j-1]`. -/
def levRowAux (ai : Char) : List Char → List Nat → Nat → List Nat
  | [], _, _ => []
  | _ :: _, [], _ => []
  | bj :: bs, pjm1 :: ps, cjm1 =>
    let pj := ps.headD 0
    let cj := if ai = bj then pjm1 else 1 + Nat.min pjm1 (Nat.min pj cjm1)
    cj :: levRowAux ai bs ps cj

/-- Translation of `levenshtein`: two-row dynamic program; row `i` starts with
`curr[0] = i` and the answer is the last entry of the final row. -/
def levenshtein (a b : List Char) : Nat :=
  if a.length = 0 then b.length
  else if b.length = 0 then a.length
  else
    let final := a.foldl
      (fun (st : List Nat × Nat) ai =>
        let i := st.2 + 1
        (i :: levRowAux ai b st.1 i, i))
      (List.range (b.length + 1), 0)
    final.1.getLastD 0

/-- Maximum of two rationals by explicit comparison (kernel-computable model
of JS `Math.max`; every value compared here is a representable binary64
value, on which rational order coincides with double order). -/
def ratMax (a b : ℚ) : ℚ := if a ≤ b then b else a

/-- Smallest shift `s` (searched upward from the accumulator, bounded by the
fuel) with `target ≤ a * 2 ^ s`. -/
def minShiftAux (a target : Nat) : Nat → Nat → Nat
  | 0, s => s
  | fuel + 1, s => if target ≤ a * 2 ^ s then s else minShiftAux a target fuel (s + 1)

/-- Round the positive rational `a / b` to IEEE-754 binary64 (53-bit mantissa,
round-to-nearest, ties-to-even), returned as the exact rational value of the
resulting double. `s` is the smallest shift putting `floor(a·2^s / b)` into
the mantissa window `[2^52, 2^53)`; the remainder decides the rounding.
Subnormal and overflow ranges are outside the magnitudes this development
uses (all scores lie in `[0, 2)`). -/
def flPos (a b : Nat) : ℚ :=
  let target := b * 2 ^ 52
  let s := minShiftAux a target (54 + b) 0
  let n := a * 2 ^ s
  let q0 := n / b
  let r := n % b
  let m :=
    if 2 * r < b then q0
    else if b < 2 * r then q0 + 1
    else if q0 % 2 = 0 then q0 else q0 + 1
  (m : ℚ) / (2 ^ s : ℚ)

/-- Correct rounding of a rational to binary64, as an exact rational: the
value a JS `number` holds after one arithmetic operation whose exact result
is `q`. Integers below `2^53` (Levenshtein distances, token counts) are fixed
points of `fl`. -/
def fl (q : ℚ) : ℚ :=
  if q = 0 then 0
  else if q < 0 then -flPos q.num.natAbs q.den
  else flPos q.num.natAbs q.den

example : fl (45 / 100) = 8106479329266893 / 18014398509481984 := by decide
example : fl (2 / 5) = 3602879701896397 / 9007199254740992 := by decide
example : fl (85 / 100) = 7656119366529843 / 9007199254740992 := by decide
example : fl (3 / 4) = 3 / 4 := by decide
example : fl (4 / 5) = 3602879701896397 / 4503599627370496 := by decide
example : fl (11 / 20) = 2476979795053773 / 4503599627370496 := by decide
example : fl (1 - fl (11 / 20)) = 2026619832316723 / 4503599627370496 := by decide
example : fl (1 - fl (11 / 20)) < fl (45 / 100) := by decide
example : fl (9 / 20) = fl (45 / 100) := by decide
example : fl 7 = 7 := by decide

/-- Translation of `stringSimilarity`: 1 for equal strings, 0 when either is
empty, otherwise `1 - levenshtein / maxLen` computed in binary64 — the
division and the subtraction each round once (the integer operands are exact
doubles). -/
def stringSimilarity (a b : List Char) : ℚ :=
  if a = b then 1
  else if a.isEmpty || b.isEmpty then 0
  else fl (1 - fl ((levenshtein a b : ℚ) / (Nat.max a.length b.length : ℚ)))

/-- Substring test (`String.includes`): `needle` occurs somewhere in `hay`. -/
def hasSub (needle hay : List Char) : Bool :=
  (scan (dropLit needle) hay).isSome

/-- Translation of `channelSimilarity`: containment (returning the double
`0.85`), then the maximum of full-string Levenshtein similarity and
Jaccard-like word overlap, each division rounded to binary64; the near-match
cutoff is the double `0.75` (exactly representable). -/
def channelSimilarity (original candidate : List Char) : ℚ :=
  let a := normalizeForMatch original
  let b := normalizeForMatch candidate
  if a.isEmpty || b.isEmpty then 0
  else if a = b then 1
  else if hasSub b a || hasSub a b then fl (85 / 100)
  else
    let fullSim := stringSimilarity a b
    let aWords := tokenize original
    let bWords := tokenize candidate
    if aWords.isEmpty || bWords.isEmpty then fullSim
    else
      let wordMatches :=
        aWords.countP (fun w =>
          bWords.any (fun bw => bw = w || decide (stringSimilarity w bw ≥ fl (3 / 4))))
      ratMax fullSim (fl ((wordMatches : ℚ) / (Nat.max aWords.length bWords.length : ℚ)))

/-- Translation of `titleOverlapScore`: fraction of the original title's
significant tokens found (exactly or at edit-distance ratio at least the
double `0.8`) in the candidate title, the final division rounded to
binary64. -/
def titleOverlapScore (original candidate : List Char) : ℚ :=
  let origWords := tokenize original
  let candWords := tokenize candidate
  if origWords.isEmpty then 0
  else
    let matchCount :=
      origWords.countP (fun w =>
        candWords.any (fun cw => cw = w || decide (stringSimilarity w cw ≥ fl (4 / 5))))
    fl ((matchCount : ℚ) / (origWords.length : ℚ))

/-- Acceptance threshold `CHANNEL_SIM_THRESHOLD = 0.45`: the JS literal
denotes the binary64 value nearest 0.45. -/
def CHANNEL_SIM_THRESHOLD : ℚ := fl (45 / 100)

/-- Acceptance threshold `TITLE_OVERLAP_THRESHOLD = 0.4`: the JS literal
denotes the binary64 value nearest 0.4. -/
def TITLE_OVERLAP_THRESHOLD : ℚ := fl (2 / 5)

example : levenshtein (strL "kitten") (strL "sitting") = 3 := by decide
example : channelSimilarity (strL "aaaaaaaaaaaaaaaaaaaa") (strL "aaaaaaaaabbbbbbbbbbb")
    < CHANNEL_SIM_THRESHOLD := by decide
example : titleOverlapScore (strL "alpha bravo charlie delta echo") (strL "alpha bravo")
    = TITLE_OVERLAP_THRESHOLD := by decide
example : channelSimilarity (strL "qqqq") (strL "wwww") = 0 := by decide
example : titleOverlapScore (strL "alpha bravo charlie delta echo") (strL "zulu yankee xray") = 0 := by decide

-- ───────────────────────── data model (db.ts schema) ─────────────────────────

/-- Row of the `videos` table. `parent_id INTEGER` is nullable with default
NULL; `is_watched BOOLEAN DEFAULT FALSE`. -/
structure VideoRow where
  id : Nat
  userId : Nat
  platform : VideoPlatform
  externalId : List Char
  url : List Char
  title : List Char
  channelName : Option (List Char)
  thumbnailUrl : Option (List Char)
  duration : Option Int
  isWatched : Bool
  parentId : Option Nat
  createdAt : Nat
deriving DecidableEq, Repr

/-- Row of the `video_progress` table. -/
structure ProgressRow where
  id : Nat
  userId : Nat
  videoId : Nat
  positionSeconds : Int
  updatedAt : Nat
deriving DecidableEq, Repr

/-- Database state: the two tables plus the AUTOINCREMENT counters. -/
structure Db where
  videos : List VideoRow
  nextVideoId : Nat
  progress : List ProgressRow
  nextProgressId : Nat
deriving Repr

/-- Input of `VideoModel.create` (`CreateVideoInput` in `types/video.ts`);
note that it declares an optional `parentId`. -/
structure CreateVideoInput where
  userId : Nat
  platform : VideoPlatform
  externalId : List Char
  url : List Char
  title : List Char
  channelName : Option (List Char) := none
  thumbnailUrl : Option (List Char) := none
  duration : Option Int := none
  parentId : Option Nat := none

/-- The `(user_id, platform, external_id)` uniqueness key of the `videos`
table. -/
def tripleKey (uid : Nat) (p : VideoPlatform) (eid : List Char) (r : VideoRow) : Bool :=
  decide (r.userId = uid ∧ r.platform = p ∧ r.externalId = eid)

/-- Update the first element satisfying `p` — the row SQLite's
`ON CONFLICT ... DO UPDATE` targets (under the table's UNIQUE constraint at
most one row can match). -/
def updateFirst (p : α → Bool) (f : α → α) : List α → List α
  | [] => []
  | x :: xs => if p x then f x :: xs else x :: updateFirst p f xs

namespace VideoModel

/-- Translation of `VideoModel.create`: an upsert on
`(user_id, platform, external_id)`. The conflict branch updates exactly
`title, channel_name, thumbnail_url, duration` (the `DO UPDATE SET` list);
the insert branch writes the eight columns of the `INSERT` column list —
`parent_id` is NOT among them, so an inserted row always gets the column
default NULL even though the input carries a `parentId`. -/
def create (now : Nat) (inp : CreateVideoInput) (db : Db) : VideoRow × Db :=
  let key := tripleKey inp.userId inp.platform inp.externalId
  let upd : VideoRow → VideoRow := fun q =>
    { q with title := inp.title, channelName := inp.channelName,
             thumbnailUrl := inp.thumbnailUrl, duration := inp.duration }
  match db.videos.find? key with
  | some r0 => (upd r0, { db with videos := updateFirst key upd db.videos })
  | none =>
    let r : VideoRow :=
      { id := db.nextVideoId, userId := inp.userId, platform := inp.platform,
        externalId := inp.externalId, url := inp.url, title := inp.title,
        channelName := inp.channelName, thumbnailUrl := inp.thumbnailUrl,
        duration := inp.duration, isWatched := false, parentId := none,
        createdAt := now }
    (r, { db with videos := db.videos ++ [r], nextVideoId := db.nextVideoId + 1 })

/-- Translation of `VideoModel.exists`: is there a row with the given
`(user_id, platform, external_id)` triple. -/
def existsVideo (videos : List VideoRow) (uid : Nat) (p : VideoPlatform) (eid : List Char) : Bool :=
  (videos.find? (tripleKey uid p eid)).isSome

/-- Translation of `VideoModel.findById` (`SELECT * FROM videos WHERE id = ?`). -/
def findById (videos : List VideoRow) (id : Nat) : Option VideoRow :=
  videos.find? (fun r => decide (r.id = id))

/-- Translation of `VideoModel.delete`: remove the row with this id and owner;
report whether anything was removed (`changes > 0`). -/
def delete (id : Nat) (userId : Nat) (db : Db) : Bool × Db :=
  let remaining := db.videos.filter (fun r => !(decide (r.id = id) && decide (r.userId = userId)))
  (decide (remaining.length < db.videos.length), { db with videos := remaining })

end VideoModel

-- ───────────────────── canonical-progress resolver (routes/progress.ts) ─────────────────────

/-- Translation of `getCanonicalId`. The source guard `if (!row?.parent_id)
return videoId` is true when the row is missing, when `parent_id` is NULL, and
also when `parent_id` is 0 (JS falsiness) — hence the explicit `p = 0` branch.
Then the parent id is returned only if the parent row still exists; otherwise
the function falls back to the video's own id. -/
def getCanonicalId (videos : List VideoRow) (videoId : Nat) : Nat :=
  match VideoModel.findById videos videoId with
  | none => videoId
  | some row =>
    match row.parentId with
    | none => videoId
    | some p =>
      if p = 0 then videoId
      else
        match VideoModel.findById videos p with
        | none => videoId
        | some _ => p

/-- JS `Math.floor` on an exact rational. -/
def jsFloor (q : ℚ) : Int := Int.fdiv q.num q.den

/-- First progress row for `(user_id, video_id)`. -/
def findProgress (l : List ProgressRow) (uid vid : Nat) : Option ProgressRow :=
  l.find? (fun r => decide (r.userId = uid ∧ r.videoId = vid))

/-- The progress upsert
(`INSERT ... ON CONFLICT(user_id, video_id) DO UPDATE SET position_seconds`). -/
def upsertProgress (db : Db) (uid vid : Nat) (pos : Int) (now : Nat) : Db :=
  let key : ProgressRow → Bool := fun r => decide (r.userId = uid ∧ r.videoId = vid)
  match findProgress db.progress uid vid with
  | some _ =>
    let upd : ProgressRow → ProgressRow := fun r =>
      { r with positionSeconds := pos, updatedAt := now }
    { db with progress := updateFirst key upd db.progress }
  | none =>
    { db with progress := db.progress ++ [⟨db.nextProgressId, uid, vid, pos, now⟩],
              nextProgressId := db.nextProgressId + 1 }

/-- Outcome of the progress write route. -/
inductive SaveProgressResult where
  | badRequest
  | notOwned (fake : ProgressRow)
  | saved (row : Option ProgressRow)
deriving DecidableEq, Repr

/-- Translation of the POST progress handler, from the point where the request
is authenticated and both numbers are validated as present. Negative positions
are rejected; the ownership check runs against the ORIGINAL caller-supplied
video id; when it fails the handler answers with a synthetic progress object
and performs no write; otherwise it resolves the canonical id and upserts
under it. -/
def saveProgressHandler (db : Db) (uid vid : Nat) (pos : ℚ) (now : Nat) :
    SaveProgressResult × Db :=
  if pos < 0 then (.badRequest, db)
  else if (db.videos.find? (fun r => decide (r.id = vid ∧ r.userId = uid))).isSome then
    let canonicalId := getCanonicalId db.videos vid
    let db2 := upsertProgress db uid canonicalId (jsFloor pos) now
    (.saved (findProgress db2.progress uid canonicalId), db2)
  else
    (.notOwned ⟨0, uid, vid, jsFloor pos, now⟩, db)

/-- Translation of the GET progress handler (authenticated, id parsed):
resolve the canonical id, then read the progress row stored under it. -/
def getProgressHandler (db : Db) (uid vid : Nat) : Option ProgressRow :=
  let canonicalId := getCanonicalId db.videos vid
  findProgress db.progress uid canonicalId

-- ───────────────────── intake route (routes/videos.ts POST) ─────────────────────

/-- Common metadata shape (`BaseVideoInfo` in `types/video.ts`). -/
structure BaseVideoInfo where
  title : List Char
  channelName : List Char
  thumbnailUrl : Option (List Char)
  duration : Option Int
deriving DecidableEq, Repr

/-- Translation of the POST videos (intake) handler, from the point where the
user row is resolved. Metadata resolution is a network effect: the resolved
(or catch-branch fallback) `BaseVideoInfo` is an argument. The duplicate check
runs BEFORE resolution and answers the distinct 409 condition; the detached
background `findAlternatives` task is modelled separately. -/
inductive AddVideoResult where
  | badUrl
  | alreadyQueued
  | created (row : VideoRow)
deriving DecidableEq, Repr

/-- Intake handler body (see `AddVideoResult`). -/
def addVideo (db : Db) (uid : Nat) (url : List Char) (info : BaseVideoInfo) (now : Nat) :
    AddVideoResult × Db :=
  match parseVideoUrl url with
  | none => (.badUrl, db)
  | some parsed =>
    if VideoModel.existsVideo db.videos uid parsed.platform parsed.externalId then
      (.alreadyQueued, db)
    else
      let res := VideoModel.create now
        { userId := uid, platform := parsed.platform, externalId := parsed.externalId,
          url := parsed.url, title := info.title, channelName := some info.channelName,
          thumbnailUrl := info.thumbnailUrl, duration := info.duration } db
      (.created res.1, res.2)

/-- The row the insert branch of `VideoModel.create` produces for an intake
request (column defaults: `is_watched = false`, `parent_id = NULL`). -/
def insertedRow (db : Db) (u : Nat) (parsed : ParsedVideoUrl) (info : BaseVideoInfo)
    (now : Nat) : VideoRow :=
  { id := db.nextVideoId, userId := u, platform := parsed.platform,
    externalId := parsed.externalId, url := parsed.url, title := info.title,
    channelName := some info.channelName, thumbnailUrl := info.thumbnailUrl,
    duration := info.duration, isWatched := false, parentId := none,
    createdAt := now }

-- ───────────────────── alternative-video finder (routes/videos.ts) ─────────────────────

/-- Candidate from the platform searches (`AltCandidate` in the route). -/
structure AltCandidate where
  title : List Char
  channelName : List Char
  thumbnailUrl : Option (List Char)
  duration : Option Int
  platform : VideoPlatform
  externalId : List Char
deriving DecidableEq, Repr

/-- Scored candidate: the map step of `findAlternatives` computing
`chSim`, `titleOvr` and the weighted sort key `0.4 * chSim + 0.6 * titleOvr`. -/
structure ScoredAlt where
  alt : AltCandidate
  chSim : ℚ
  titleOvr : ℚ
  score : ℚ
deriving Repr

/-- Score one candidate against the original channel and title; the weighted
sort key is computed in binary64 (two products and one sum, each rounded). -/
def scoreAlt (originalChannel query : List Char) (alt : AltCandidate) : ScoredAlt :=
  let chSim := channelSimilarity originalChannel alt.channelName
  let titleOvr := titleOverlapScore query alt.title
  { alt := alt, chSim := chSim, titleOvr := titleOvr,
    score := fl (fl (chSim * fl (2 / 5)) + fl (titleOvr * fl (3 / 5))) }

/-- URL stored for an accepted alternative, by platform. -/
def altUrl (alt : AltCandidate) : List Char :=
  if alt.platform = .vk then strL "https://vk.com/video" ++ alt.externalId
  else strL "https://rutube.ru/video/" ++ alt.externalId ++ strL "/"

/-- The acceptance loop of `findAlternatives`: skip a candidate when BOTH
scores are below their thresholds (the gate is an inclusive-boundary OR),
skip duplicates of an existing `(owner, platform, externalId)` row, persist
the rest through `VideoModel.create` with `parentId` set to the root id. -/
def altLoop (userId parentId : Nat) (now : Nat) : Db → List ScoredAlt → Db
  | db, [] => db
  | db, s :: rest =>
    let isChannelOk := decide (s.chSim ≥ CHANNEL_SIM_THRESHOLD)
    let isTitleOk := decide (s.titleOvr ≥ TITLE_OVERLAP_THRESHOLD)
    if !isChannelOk && !isTitleOk then altLoop userId parentId now db rest
    else if VideoModel.existsVideo db.videos userId s.alt.platform s.alt.externalId then
      altLoop userId parentId now db rest
    else
      altLoop userId parentId now
        (VideoModel.create now
          { userId := userId, platform := s.alt.platform, externalId := s.alt.externalId,
            url := altUrl s.alt, title := s.alt.title, channelName := some s.alt.channelName,
            thumbnailUrl := s.alt.thumbnailUrl, duration := s.alt.duration,
            parentId := some parentId } db).2 rest

/-- Scoring-and-persisting phase of `findAlternatives` for a given list of
search candidates (the platform searches that produce the candidates are
network effects; their combined result is the `candidates` argument). Scores,
sorts by descending weighted score, then runs the acceptance loop. -/
def findAlternatives (query originalChannel : List Char) (userId parentId : Nat)
    (candidates : List AltCandidate) (db : Db) (now : Nat) : Db :=
  let scored := (candidates.map (scoreAlt originalChannel query)).mergeSort
    (fun a b => decide (a.score ≥ b.score))
  altLoop userId parentId now db scored

-- ───────────────────── per-platform resolver chains (services/) ─────────────────────

/-- JS `String.trim`. -/
def trimChars (l : List Char) : List Char :=
  ((l.dropWhile Char.isWhitespace).reverse.dropWhile Char.isWhitespace).reverse

/-- The entity alternation `(?:amp|lt|gt|quot|#39);` tried after a `&`, in
regex order: on success, the replacement character and the rest of the input. -/
def entityTail (rest : List Char) : Option (Char × List Char) :=
  match dropLit (strL "amp;") rest with
  | some tl => some ('&', tl)
  | none =>
    match dropLit (strL "lt;") rest with
    | some tl => some ('<', tl)
    | none =>
      match dropLit (strL "gt;") rest with
      | some tl => some ('>', tl)
      | none =>
        match dropLit (strL "quot;") rest with
        | some tl => some ('"', tl)
        | none =>
          match dropLit (strL "#39;") rest with
          | some tl => some (Char.ofNat 39, tl)
          | none => none

/-- Left-to-right non-overlapping scan of `decodeHtmlEntities`, structurally
recursive on a fuel argument (each step consumes at least one character, so
`fuel = l.length` suffices and the fuel-exhausted branch is unreachable). -/
def decodeAux : Nat → List Char → List Char
  | 0, l => l
  | _ + 1, [] => []
  | fuel + 1, c :: rest =>
    if c = '&' then
      match entityTail rest with
      | some (d, tl) => d :: decodeAux fuel tl
      | none => c :: decodeAux fuel rest
    else c :: decodeAux fuel rest

/-- Translation of `decodeHtmlEntities`: global replacement of the five
entities `&amp; &lt; &gt; &quot; &#39;` by `& < > " '`. -/
def decodeHtmlEntities (l : List Char) : List Char := decodeAux l.length l

/-- Parsed JSON body of an oEmbed-style response (all fields optional). -/
structure OembedData where
  title : Option (List Char) := none
  author_name : Option (List Char) := none
  thumbnail_url : Option (List Char) := none
  html : Option (List Char) := none
deriving DecidableEq, Repr

-- services/youtube.ts

/-- Parsed JSON body of an Invidious instance response. -/
structure InvidiousData where
  lengthSeconds : Option Int := none
deriving DecidableEq, Repr

/-- Network environment of the YouTube resolver: the oEmbed response (`none`
models a non-ok status or a thrown fetch error, both caught and converted to
`null` in the source) and the per-instance Invidious responses. -/
structure YtEnv where
  oembed : Option OembedData := none
  invidious : List (Option InvidiousData) := []

/-- Result shape of the YouTube resolver (`YouTubeVideoInfo`); the source's
`instance` tag field is called `instTag` (`instance` is reserved in Lean). -/
structure YouTubeVideoInfo where
  title : List Char
  channelName : List Char
  thumbnailUrl : List Char
  duration : Option Int
  instTag : List Char
deriving DecidableEq, Repr

/-- Deterministic thumbnail URL pattern (`thumbnailUrl` in the source). -/
def ytThumbnailUrl (videoId : List Char) : List Char :=
  strL "https://img.youtube.com/vi/" ++ videoId ++ strL "/maxresdefault.jpg"

/-- Translation of `tryOembed` (YouTube): requires a present, non-empty
trimmed title; the channel falls back to "YouTube" only when `author_name`
is absent. -/
def tryOembedYt (env : YtEnv) (videoId : List Char) : Option YouTubeVideoInfo :=
  match env.oembed with
  | none => none
  | some data =>
    match data.title with
    | none => none
    | some t0 =>
      let title := trimChars t0
      if title.isEmpty then none
      else
        some { title := title,
               channelName := (data.author_name.map trimChars).getD (strL "YouTube"),
               thumbnailUrl := ytThumbnailUrl videoId,
               duration := none, instTag := strL "oembed" }

/-- Translation of `tryInvidiousDuration`: walk the instances, return the
first positive numeric `lengthSeconds`, else `null`. -/
def tryInvidiousDuration : List (Option InvidiousData) → Option Int
  | [] => none
  | none :: rest => tryInvidiousDuration rest
  | some d :: rest =>
    match d.lengthSeconds with
    | some n => if n > 0 then some n else tryInvidiousDuration rest
    | none => tryInvidiousDuration rest

/-- Translation of `getYouTubeInfo`: oEmbed first (enriched with Invidious
duration on success), otherwise the hard fallback stub. -/
def getYouTubeInfo (env : YtEnv) (videoId : List Char) : YouTubeVideoInfo :=
  match tryOembedYt env videoId with
  | some r => { r with duration := tryInvidiousDuration env.invidious }
  | none =>
    { title := strL "YouTube Video", channelName := strL "YouTube",
      thumbnailUrl := ytThumbnailUrl videoId, duration := none,
      instTag := strL "fallback" }

-- services/rutube.ts

/-- Result shape of the Rutube resolver (`RutubeVideoInfo`). -/
structure RutubeVideoInfo where
  title : List Char
  channelName : List Char
  thumbnailUrl : Option (List Char)
  duration : Option Int
  embedUrl : List Char
  html : Option (List Char)
deriving DecidableEq, Repr

/-- Translation of `getRutubeInfo`: on an ok oEmbed response the fields are
taken with `??` defaults (note `data.title ?? "Rutube Video"` applies only
when the field is ABSENT, not when it is an empty string); any failure is
caught and yields the stub with the deterministic thumbnail endpoint. -/
def getRutubeInfo (oembed : Option OembedData) (videoId : List Char) : RutubeVideoInfo :=
  match oembed with
  | some data =>
    { title := data.title.getD (strL "Rutube Video"),
      channelName := data.author_name.getD (strL "Unknown"),
      thumbnailUrl := data.thumbnail_url,
      duration := none,
      embedUrl := strL "https://rutube.ru/play/embed/" ++ videoId,
      html := data.html }
  | none =>
    { title := strL "Rutube Video", channelName := strL "Unknown",
      thumbnailUrl := some (strL "https://rutube.ru/api/video/" ++ videoId ++ strL "/thumbnail/"),
      duration := none,
      embedUrl := strL "https://rutube.ru/play/embed/" ++ videoId,
      html := none }

-- services/vk.ts

/-- Entry of the VK API `image` array. -/
structure VkImage where
  url : List Char
  width : Int
  height : Int
deriving DecidableEq, Repr

/-- Item of a VK API `video.get` response. -/
structure VkApiItem where
  title : Option (List Char) := none
  duration : Option Int := none
  image : List VkImage := []
  photo_800 : Option (List Char) := none
  photo_640 : Option (List Char) := none
  photo_320 : Option (List Char) := none
deriving DecidableEq, Repr

/-- Parsed VK API response: `err` models a present `error` object, `item`
models `data.response?.items?.[0]`. -/
structure VkApiResult where
  err : Bool := false
  item : Option VkApiItem := none
deriving DecidableEq, Repr

/-- Regex-extraction results of one scraped VK HTML page: the two attribute
orders of the `og:title` meta tag, the `<title>` tag (used by the mobile
strategy only), and the two attribute orders of `og:image`. -/
structure ScrapeData where
  ogTitleA : Option (List Char) := none
  ogTitleB : Option (List Char) := none
  titleTag : Option (List Char) := none
  ogImageA : Option (List Char) := none
  ogImageB : Option (List Char) := none
deriving DecidableEq, Repr

/-- Network environment of the VK resolver chain: the optional service token
gating the API strategy, and the response of each strategy's fetch (`none`
models a non-ok status or a caught error). -/
structure VkEnv where
  token : Option (List Char) := none
  api : Option VkApiResult := none
  oembed : Option OembedData := none
  mobile : Option ScrapeData := none
  googlebot : Option ScrapeData := none
  desktop : Option ScrapeData := none

/-- Result shape of the VK resolver (`VkVideoInfo`). -/
structure VkVideoInfo where
  title : List Char
  channelName : List Char
  thumbnailUrl : Option (List Char)
  duration : Option Int
  embedUrl : List Char
deriving DecidableEq, Repr

/-- Embed URL built by every VK strategy (`getVkEmbedUrl` pattern). -/
def vkEmbedUrl (ownerId videoId : List Char) : List Char :=
  strL "https://vk.com/video_ext.php?oid=" ++ ownerId ++ strL "&id=" ++ videoId ++ strL "&hd=2"

/-- Translation of `bestThumbnail`: the widest entry of the `image` array
(first among ties, as the stable descending sort then `[0]` does), else the
legacy photo fields. -/
def bestThumbnail (item : VkApiItem) : Option (List Char) :=
  match item.image with
  | [] => (item.photo_800 <|> item.photo_640) <|> item.photo_320
  | first :: rest =>
    some (rest.foldl (fun best img => if img.width > best.width then img else best) first).url

/-- Does `l` start with the literal `lit` (JS `String.startsWith`). -/
def startsWithLit (lit l : List Char) : Bool := (dropLit lit l).isSome

/-- The generic/blocked-page title test shared by the VK scraping strategies:
brand names, "vkontakte" in any case, and the `VK |` / `ВК |` prefixes. -/
def isGenericVkTitle (title : List Char) : Bool :=
  decide (title = strL "VK") ||
  hasSub (strL "vkontakte") (title.map jsLower) ||
  hasSub (strL "ВКонтакте") title ||
  hasSub (strL "Вконтакте") title ||
  startsWithLit (strL "VK |") title ||
  startsWithLit (strL "ВК |") title

/-- JS `x ? decodeHtmlEntities(x) : null` on an optional capture: absent and
empty strings both yield `null`. -/
def truthyDecode (o : Option (List Char)) : Option (List Char) :=
  match o with
  | some i => if i.isEmpty then none else some (decodeHtmlEntities i)
  | none => none

/-- Translation of `tryVkApi`: skipped entirely without a service token;
rejects error responses and items without a truthy title. -/
def tryVkApi (env : VkEnv) (ownerId videoId : List Char) : Option VkVideoInfo :=
  match env.token with
  | none => none
  | some _ =>
    match env.api with
    | none => none
    | some data =>
      if data.err then none
      else
        match data.item with
        | none => none
        | some item =>
          match item.title with
          | none => none
          | some t =>
            if t.isEmpty then none
            else
              some { title := decodeHtmlEntities t, channelName := strL "VK Video",
                     thumbnailUrl := bestThumbnail item, duration := item.duration,
                     embedUrl := vkEmbedUrl ownerId videoId }

/-- Translation of `tryOembed` (VK): non-empty trimmed title required; channel
falls back to "VK Video" when `author_name` is absent or empty. -/
def tryOembedVk (env : VkEnv) (ownerId videoId : List Char) : Option VkVideoInfo :=
  match env.oembed with
  | none => none
  | some data =>
    match data.title with
    | none => none
    | some t0 =>
      let title := trimChars t0
      if title.isEmpty then none
      else
        let channelName :=
          match data.author_name with
          | some a => if a.isEmpty then strL "VK Video" else decodeHtmlEntities a
          | none => strL "VK Video"
        some { title := decodeHtmlEntities title, channelName := channelName,
               thumbnailUrl := data.thumbnail_url, duration := none,
               embedUrl := vkEmbedUrl ownerId videoId }

/-- Translation of `tryMobileScraping`: `og:title` in either attribute order,
falling back to the `<title>` tag; generic titles are rejected. -/
def tryMobileScraping (env : VkEnv) (ownerId videoId : List Char) : Option VkVideoInfo :=
  match env.mobile with
  | none => none
  | some page =>
    match ((page.ogTitleA <|> page.ogTitleB) <|> page.titleTag).map trimChars with
    | none => none
    | some title =>
      if title.isEmpty || isGenericVkTitle title then none
      else
        some { title := decodeHtmlEntities title, channelName := strL "VK Video",
               thumbnailUrl := truthyDecode (page.ogImageA <|> page.ogImageB),
               duration := none, embedUrl := vkEmbedUrl ownerId videoId }

/-- Translation of `extractOgTitle`: trimmed `og:title` (either attribute
order), `null` when missing, empty or generic; entity-decoded otherwise. -/
def extractOgTitle (page : ScrapeData) : Option (List Char) :=
  match (page.ogTitleA <|> page.ogTitleB).map trimChars with
  | none => none
  | some title =>
    if title.isEmpty then none
    else if isGenericVkTitle title then none
    else some (decodeHtmlEntities title)

/-- Shared body of `tryGooglebotScraping` and `tryHtmlScraping` (identical in
the source up to the user agent of the fetch, which lives in the environment). -/
def scrapeOgStrategy (pg : Option ScrapeData) (ownerId videoId : List Char) : Option VkVideoInfo :=
  match pg with
  | none => none
  | some page =>
    match extractOgTitle page with
    | none => none
    | some title =>
      some { title := title, channelName := strL "VK Video",
             thumbnailUrl := truthyDecode (page.ogImageA <|> page.ogImageB),
             duration := none, embedUrl := vkEmbedUrl ownerId videoId }

/-- Translation of `tryGooglebotScraping`. -/
def tryGooglebotScraping (env : VkEnv) (ownerId videoId : List Char) : Option VkVideoInfo :=
  scrapeOgStrategy env.googlebot ownerId videoId

/-- Translation of `tryHtmlScraping` (desktop user agent, last resort). -/
def tryHtmlScraping (env : VkEnv) (ownerId videoId : List Char) : Option VkVideoInfo :=
  scrapeOgStrategy env.desktop ownerId videoId

/-- Translation of `getVkVideoInfo`: the five strategies in priority order,
then the generic stub. -/
def getVkVideoInfo (env : VkEnv) (ownerId videoId : List Char) : VkVideoInfo :=
  match tryVkApi env ownerId videoId with
  | some r => r
  | none =>
    match tryOembedVk env ownerId videoId with
    | some r => r
    | none =>
      match tryMobileScraping env ownerId videoId with
      | some r => r
      | none =>
        match tryGooglebotScraping env ownerId videoId with
        | some r => r
        | none =>
          match tryHtmlScraping env ownerId videoId with
          | some r => r
          | none =>
            { title := strL "VK Video", channelName := strL "VK Video",
              thumbnailUrl := none, duration := none,
              embedUrl := vkEmbedUrl ownerId videoId }

example : (getVkVideoInfo {} (strL "-1") (strL "2")).title = strL "VK Video" := by decide
example : (getYouTubeInfo {} (strL "abcdefghijk")).title = strL "YouTube Video" := by decide
example : (getRutubeInfo none (strL "aa")).title = strL "Rutube Video" := by decide
example : decodeHtmlEntities (strL "a &amp; b &lt;c&gt;") = strL "a & b <c>" := by decide

-- ───────────────────────── concrete fixtures for witnesses ─────────────────────────

/-- Fixture: a family-root row (no parent). -/
def fixRoot : VideoRow :=
  { id := 1, userId := 7, platform := .youtube, externalId := strL "abcdefghijk",
    url := strL "https://youtube.com/watch?v=abcdefghijk", title := strL "Root",
    channelName := some (strL "Chan"), thumbnailUrl := none, duration := some 300,
    isWatched := false, parentId := none, createdAt := 0 }

/-- Fixture: a mirror row whose `parent_id` points at `fixRoot`. -/
def fixChild : VideoRow :=
  { id := 2, userId := 7, platform := .rutube,
    externalId := strL "00000000000000000000000000000000",
    url := strL "https://rutube.ru/video/00000000000000000000000000000000/",
    title := strL "Mirror", channelName := some (strL "Chan"), thumbnailUrl := none,
    duration := some 300, isWatched := false, parentId := some 1, createdAt := 1 }

/-- Fixture: a row orphaned by root deletion (`parent_id` points at a missing
row). -/
def fixOrphan : VideoRow :=
  { id := 3, userId := 7, platform := .vk, externalId := strL "-5_9",
    url := strL "https://vk.com/video-5_9", title := strL "Orphan",
    channelName := none, thumbnailUrl := none, duration := none,
    isWatched := false, parentId := some 9, createdAt := 2 }

/-- Fixture database holding the three rows above. -/
def fixDb : Db :=
  { videos := [fixRoot, fixChild, fixOrphan], nextVideoId := 4,
    progress := [], nextProgressId := 1 }

/-- Fixture: an empty database. -/
def fixEmptyDb : Db := { videos := [], nextVideoId := 1, progress := [], nextProgressId := 1 }

/-- Fixture: resolved metadata for an intake request. -/
def fixInfo : BaseVideoInfo :=
  { title := strL "T", channelName := strL "C", thumbnailUrl := none, duration := none }

/-- The row the insert branch of `VideoModel.create` produces from an input
(column defaults: `is_watched = false`, `parent_id = NULL`). -/
def createdRow (db : Db) (inp : CreateVideoInput) (now : Nat) : VideoRow :=
  { id := db.nextVideoId, userId := inp.userId, platform := inp.platform,
    externalId := inp.externalId, url := inp.url, title := inp.title,
    channelName := inp.channelName, thumbnailUrl := inp.thumbnailUrl,
    duration := inp.duration, isWatched := false, parentId := none,
    createdAt := now }

/-- Fixture: a search candidate strictly below both fuzzy thresholds against
channel "qqqq" and title "alpha bravo charlie delta echo". -/
def fixAltBelow : AltCandidate :=
  { title := strL "zulu yankee xray", channelName := strL "wwww",
    thumbnailUrl := none, duration := none, platform := .vk, externalId := strL "-1_2" }

/-- Fixture: the 20-token channel the boundary candidate is scored against. -/
def fixChan20 : List Char :=
  strL "aaa bbb ccc ddd eee fff ggg hhh iii jjj kkk lll mmm nnn ooo ppp qqq rrr sss ttt"

/-- Fixture: a search candidate whose channel similarity against `fixChan20`
is exactly the double 0.45: 9 of the 20 significant tokens match, so the word
overlap is the correctly rounded 9/20 — the same binary64 value as the
threshold literal 0.45 (its first two tokens are swapped so the containment
branch does not fire, and the full-string similarity stays below). Its title
overlap is 0. -/
def fixAlt45 : AltCandidate :=
  { title := strL "zulu yankee xray", channelName := strL "bbb aaa ccc ddd eee fff ggg hhh iii",
    thumbnailUrl := none, duration := none, platform := .rutube,
    externalId := strL "ffffffffffffffffffffffffffffffff" }

/-- Fixture: a search candidate whose title overlap against
"alpha bravo charlie delta echo" is exactly 0.4 (2 of 5 significant tokens)
while its channel similarity is 0. -/
def fixAlt40 : AltCandidate :=
  { title := strL "alpha bravo", channelName := strL "wwww",
    thumbnailUrl := none, duration := none, platform := .vk, externalId := strL "-3_4" }

-- ───────────────────────── supporting lemmas ─────────────────────────

theorem find_some_decomp {α} {p : α → Bool} {l : List α} {x : α}
    (h : l.find? p = some x) :
    ∃ pre post, l = pre ++ x :: post ∧ (∀ y ∈ pre, p y = false) ∧ p x = true := by
  induction l with
  | nil => simp at h
  | cons a as ih =>
    by_cases ha : p a
    · rw [List.find?_cons_of_pos _ ha] at h
      obtain rfl := Option.some.inj h
      exact ⟨[], as, rfl, by simp, ha⟩
    · rw [List.find?_cons_of_neg _ (by simpa using ha)] at h
      obtain ⟨pre, post, hsplit, hpre, hx⟩ := ih h
      refine ⟨a :: pre, post, by simp [hsplit], ?_, hx⟩
      intro y hy
      rcases List.mem_cons.mp hy with rfl | hy
      · simpa using ha
      · exact hpre y hy

theorem find_append_none {α} {p : α → Bool} {l₁ l₂ : List α}
    (h : l₁.find? p = none) : (l₁ ++ l₂).find? p = l₂.find? p := by
  induction l₁ with
  | nil => simp
  | cons a as ih =>
    have h' := List.find?_eq_none.mp h
    rw [List.cons_append, List.find?_cons_of_neg _ (h' a (List.mem_cons_self a as))]
    exact ih (List.find?_eq_none.mpr fun x hx => h' x (List.mem_cons_of_mem a hx))

theorem find_pre_mid {α} {p : α → Bool} {pre : List α} {x : α} (post : List α)
    (hpre : ∀ y ∈ pre, p y = false) (hx : p x = true) :
    (pre ++ x :: post).find? p = some x := by
  induction pre with
  | nil => simpa using List.find?_cons_of_pos post hx
  | cons a as ih =>
    rw [List.cons_append, List.find?_cons_of_neg _ (by simp [hpre a (by simp)])]
    exact ih fun y hy => hpre y (List.mem_cons_of_mem a hy)

theorem updateFirst_of_split {α} {p : α → Bool} {f : α → α} {pre : List α} {x : α}
    (post : List α) (hpre : ∀ y ∈ pre, p y = false) (hx : p x = true) :
    updateFirst p f (pre ++ x :: post) = pre ++ f x :: post := by
  induction pre with
  | nil => simp [updateFirst, hx]
  | cons a as ih =>
    rw [List.cons_append, updateFirst, if_neg (by simp [hpre a (by simp)]),
      ih fun y hy => hpre y (List.mem_cons_of_mem a hy), List.cons_append]

theorem decodeHtmlEntities_ne_nil {l : List Char} (h : l ≠ []) :
    decodeHtmlEntities l ≠ [] := by
  match l with
  | [] => exact absurd rfl h
  | c :: rest =>
    show decodeAux (rest.length + 1) (c :: rest) ≠ []
    rw [decodeAux]
    split
    · split
      · exact List.cons_ne_nil _ _
      · exact List.cons_ne_nil _ _
    · exact List.cons_ne_nil _ _

-- ───────────────────────── claims ─────────────────────────

/-- C1. The claim states that every accepted candidate persisted by
`VideoModel.create` with `parentId = rootVideoId` has `parent_id = rootVideoId`
afterwards. The code refutes this: the `INSERT` column list of
`VideoModel.create` omits `parent_id`, so the inserted row keeps the column
default NULL even though the input (and the `findAlternatives` call site)
supplies `parentId`. Evaluated here at a concrete accepted candidate: the
input carries `parentId = some 1`, the created row has `parentId = none`. -/
theorem C1_parent_link_dropped :
    (VideoModel.create 5
      { userId := 7, platform := .rutube,
        externalId := strL "00000000000000000000000000000000",
        url := strL "https://rutube.ru/video/00000000000000000000000000000000/",
        title := strL "Mirror", channelName := some (strL "Chan"),
        parentId := some 1 }
      { videos := [fixRoot], nextVideoId := 2, progress := [], nextProgressId := 1 }).1.parentId
      = none ∧
    (VideoModel.create 5
      { userId := 7, platform := .rutube,
        externalId := strL "00000000000000000000000000000000",
        url := strL "https://rutube.ru/video/00000000000000000000000000000000/",
        title := strL "Mirror", channelName := some (strL "Chan"),
        parentId := some 1 }
      { videos := [fixRoot], nextVideoId := 2, progress := [],
        nextProgressId := 1 }).2.videos.map VideoRow.parentId = [none, none] := by
  constructor
  · rfl
  · simp only [VideoModel.create]
    rfl

/-- C3. Canonical-id resolution: for a video row found for id `v`, (1) no
`parent_id` resolves to `v` itself; (2) a `parent_id` whose row still exists
resolves to the parent id; (3) a `parent_id` whose row was deleted falls back
to `v` (and the function is total, so never an error). Positivity of stored
parent ids (guaranteed by SQLite AUTOINCREMENT ids starting at 1) is assumed
because the source's JS falsiness check `!row?.parent_id` would also treat a
parent id 0 as absent. -/
theorem C3_canonical_resolution
    (videos : List VideoRow) (v : Nat) (row : VideoRow)
    (hrow : VideoModel.findById videos v = some row)
    (hvalid : ∀ r ∈ videos, ∀ p, r.parentId = some p → 0 < p) :
    (row.parentId = none → getCanonicalId videos v = v) ∧
    (∀ p, row.parentId = some p → (VideoModel.findById videos p).isSome →
      getCanonicalId videos v = p) ∧
    (∀ p, row.parentId = some p → VideoModel.findById videos p = none →
      getCanonicalId videos v = v) := by
  have hmem : row ∈ videos := List.mem_of_find?_eq_some hrow
  refine ⟨?_, ?_, ?_⟩
  · intro hp
    simp [getCanonicalId, hrow, hp]
  · intro p hp hps
    have hp0 : ¬ p = 0 := Nat.pos_iff_ne_zero.mp (hvalid row hmem p hp)
    obtain ⟨q, hq⟩ := Option.isSome_iff_exists.mp hps
    simp [getCanonicalId, hrow, hp, hp0, hq]
  · intro p hp hnone
    by_cases hp0 : p = 0
    · simp [getCanonicalId, hrow, hp, hp0]
    · simp [getCanonicalId, hrow, hp, hp0, hnone]

/-- Witness for C3 on the fixture family: the root resolves to itself, the
child resolves to the still-existing root, the orphan falls back to its own
id. -/
theorem C3_witness :
    getCanonicalId fixDb.videos 1 = 1 ∧
    getCanonicalId fixDb.videos 2 = 1 ∧
    getCanonicalId fixDb.videos 3 = 3 := by
  refine ⟨?_, ?_, ?_⟩
  · exact (C3_canonical_resolution fixDb.videos 1 fixRoot (by decide) (by decide)).1 rfl
  · exact (C3_canonical_resolution fixDb.videos 2 fixChild (by decide) (by decide)).2.1
      1 rfl (by decide)
  · exact (C3_canonical_resolution fixDb.videos 3 fixOrphan (by decide) (by decide)).2.2
      9 rfl (by decide)

/-- C6. On a progress write, the ownership check runs against the original,
caller-supplied video id; when the `(video id, user)` lookup fails, the whole
database — in particular the `video_progress` table — is left unchanged: no
row is inserted or updated under any canonical id. -/
theorem C6_no_write_without_ownership
    (db : Db) (u vid : Nat) (pos : ℚ) (now : Nat)
    (hown : db.videos.find? (fun r => decide (r.id = vid ∧ r.userId = u)) = none) :
    (saveProgressHandler db u vid pos now).2 = db := by
  unfold saveProgressHandler
  by_cases hneg : pos < 0
  · rw [if_pos hneg]
  · rw [if_neg hneg, hown]
    simp

/-- Witness for C6: user 8 does not own video 1 (owned by user 7); the write
leaves the database untouched. -/
theorem C6_witness : (saveProgressHandler fixDb 8 1 20 3).2 = fixDb :=
  C6_no_write_without_ownership fixDb 8 1 20 3 (by decide)

/-- C10. When `VideoModel.create` hits an existing
`(userId, platform, externalId)` row, the upsert updates only `title`,
`channel_name`, `thumbnail_url` and `duration` of exactly that row (shown by
the structure-update form and the unchanged `pre`/`post` context); the rest of
the database — other rows, the progress table, the id counters — is
untouched. -/
theorem C10_upsert_frame
    (db : Db) (inp : CreateVideoInput) (now : Nat) (r0 : VideoRow)
    (h : db.videos.find? (tripleKey inp.userId inp.platform inp.externalId) = some r0) :
    ∃ pre post,
      db.videos = pre ++ r0 :: post ∧
      VideoModel.create now inp db =
        ({ r0 with title := inp.title, channelName := inp.channelName,
                   thumbnailUrl := inp.thumbnailUrl, duration := inp.duration },
         { db with videos :=
            pre ++ { r0 with title := inp.title, channelName := inp.channelName,
                             thumbnailUrl := inp.thumbnailUrl,
                             duration := inp.duration } :: post }) := by
  obtain ⟨pre, post, hsplit, hpre, hx⟩ := find_some_decomp h
  refine ⟨pre, post, hsplit, ?_⟩
  unfold VideoModel.create
  dsimp only
  rw [h]
  dsimp only
  rw [hsplit, updateFirst_of_split post hpre hx]

/-- Witness for C10: re-adding the fixture root's link with fresh metadata
updates that row in place and changes nothing else. -/
theorem C10_witness :
    ∃ pre post,
      fixDb.videos = pre ++ fixRoot :: post ∧
      VideoModel.create 9
        { userId := 7, platform := .youtube, externalId := strL "abcdefghijk",
          url := strL "u2", title := strL "NewTitle", channelName := none,
          thumbnailUrl := none, duration := some 42 } fixDb =
        ({ fixRoot with title := strL "NewTitle", channelName := none,
                        thumbnailUrl := none, duration := some 42 },
         { fixDb with videos :=
            pre ++ { fixRoot with title := strL "NewTitle", channelName := none,
                                  thumbnailUrl := none, duration := some 42 } :: post }) :=
  C10_upsert_frame fixDb
    { userId := 7, platform := .youtube, externalId := strL "abcdefghijk",
      url := strL "u2", title := strL "NewTitle", channelName := none,
      thumbnailUrl := none, duration := some 42 } 9 fixRoot (by decide)

/-- Lemma: the conflict path of intake — a parsed link whose triple already
exists answers "already queued" and leaves the state unchanged. -/
theorem addVideo_conflict (db : Db) (u : Nat) (url : List Char) (info : BaseVideoInfo)
    (now : Nat) (parsed : ParsedVideoUrl)
    (hp : parseVideoUrl url = some parsed)
    (hex : VideoModel.existsVideo db.videos u parsed.platform parsed.externalId = true) :
    addVideo db u url info now = (.alreadyQueued, db) := by
  unfold addVideo
  rw [hp]
  dsimp only
  rw [if_pos hex]

/-- Lemma: the insert path of intake — a parsed link with no existing row for
its triple creates exactly the new row (with the SQL defaults
`is_watched = false`, `parent_id = NULL`). -/
theorem addVideo_insert (db : Db) (u : Nat) (url : List Char) (info : BaseVideoInfo)
    (now : Nat) (parsed : ParsedVideoUrl)
    (hp : parseVideoUrl url = some parsed)
    (hnone : db.videos.find? (tripleKey u parsed.platform parsed.externalId) = none) :
    addVideo db u url info now =
      (.created (insertedRow db u parsed info now),
       { db with videos := db.videos ++ [insertedRow db u parsed info now],
                 nextVideoId := db.nextVideoId + 1 }) := by
  have hexn : ¬ (VideoModel.existsVideo db.videos u parsed.platform parsed.externalId = true) := by
    unfold VideoModel.existsVideo
    rw [hnone]
    simp
  unfold addVideo
  rw [hp]
  dsimp only
  rw [if_neg hexn]
  unfold VideoModel.create insertedRow
  dsimp only
  rw [hnone]

/-- C9. Idempotent intake: starting from a state with no row for the parsed
`(owner, platform, external_id)`, the first submission creates a row (201
path) and leaves exactly one row for that triple; resubmitting the same link
answers the distinct "already queued" condition (the 409 branch, produced by
the uniqueness check that runs before metadata resolution) and leaves the
state — hence still exactly one row — unchanged. -/
theorem C9_idempotent_intake
    (db : Db) (u : Nat) (url : List Char) (info info2 : BaseVideoInfo)
    (now now2 : Nat) (parsed : ParsedVideoUrl)
    (hp : parseVideoUrl url = some parsed)
    (h0 : db.videos.countP (tripleKey u parsed.platform parsed.externalId) = 0) :
    (∃ row, (addVideo db u url info now).1 = .created row) ∧
    ((addVideo db u url info now).2.videos.countP
        (tripleKey u parsed.platform parsed.externalId) = 1) ∧
    addVideo (addVideo db u url info now).2 u url info2 now2 =
      (.alreadyQueued, (addVideo db u url info now).2) := by
  have hnone : db.videos.find? (tripleKey u parsed.platform parsed.externalId) = none :=
    List.find?_eq_none.mpr (List.countP_eq_zero.mp h0)
  have hstep := addVideo_insert db u url info now parsed hp hnone
  have hkey :
      tripleKey u parsed.platform parsed.externalId (insertedRow db u parsed info now) = true := by
    simp [tripleKey, insertedRow]
  have hex2 : VideoModel.existsVideo (addVideo db u url info now).2.videos u
      parsed.platform parsed.externalId = true := by
    unfold VideoModel.existsVideo
    rw [hstep]
    dsimp only
    rw [find_append_none hnone, List.find?_cons_of_pos _ hkey]
    rfl
  refine ⟨⟨_, by rw [hstep]⟩, ?_, ?_⟩
  · rw [hstep]
    dsimp only
    rw [List.countP_append, h0]
    simp [List.countP_cons, hkey]
  · exact addVideo_conflict _ u url info2 now2 parsed hp hex2

/-- Witness for C9: adding a watch link to an empty database creates one row;
adding it again yields the "already queued" answer and no change. -/
theorem C9_witness :
    (∃ row, (addVideo fixEmptyDb 1 (strL "https://youtube.com/watch?v=abcdefghijk") fixInfo 0).1
      = .created row) ∧
    ((addVideo fixEmptyDb 1 (strL "https://youtube.com/watch?v=abcdefghijk") fixInfo 0).2.videos.countP
        (tripleKey 1 VideoPlatform.youtube (strL "abcdefghijk")) = 1) ∧
    addVideo (addVideo fixEmptyDb 1 (strL "https://youtube.com/watch?v=abcdefghijk") fixInfo 0).2
        1 (strL "https://youtube.com/watch?v=abcdefghijk") fixInfo 1 =
      (.alreadyQueued,
       (addVideo fixEmptyDb 1 (strL "https://youtube.com/watch?v=abcdefghijk") fixInfo 0).2) :=
  C9_idempotent_intake fixEmptyDb 1 (strL "https://youtube.com/watch?v=abcdefghijk")
    fixInfo fixInfo 0 1
    ⟨.youtube, strL "abcdefghijk", strL "https://youtube.com/watch?v=abcdefghijk"⟩
    (by decide) (by decide)

/-- Lemma: insert branch of `VideoModel.create` — with no conflicting row, the
new row is appended and returned. -/
theorem create_insert (db : Db) (inp : CreateVideoInput) (now : Nat)
    (hnone : db.videos.find? (tripleKey inp.userId inp.platform inp.externalId) = none) :
    VideoModel.create now inp db =
      (createdRow db inp now,
       { db with videos := db.videos ++ [createdRow db inp now],
                 nextVideoId := db.nextVideoId + 1 }) := by
  unfold VideoModel.create createdRow
  dsimp only
  rw [hnone]

/-- Lemma: the acceptance loop of the Alternative-Video Finder never removes
rows: anything present before the loop is present after it. -/
theorem altLoop_mem_mono (u pid now : Nat) (alts : List ScoredAlt) (db : Db)
    (r : VideoRow) (hr : r ∈ db.videos) :
    r ∈ (altLoop u pid now db alts).videos := by
  induction alts generalizing db with
  | nil => exact hr
  | cons s rest ih =>
    simp only [altLoop]
    split
    · exact ih db hr
    · split
      · exact ih db hr
      · rename_i hgate hex
        have hnone : db.videos.find?
            (tripleKey u s.alt.platform s.alt.externalId) = none := by
          unfold VideoModel.existsVideo at hex
          cases hf : db.videos.find? (tripleKey u s.alt.platform s.alt.externalId) with
          | none => rfl
          | some v => rw [hf] at hex; simp at hex
        rw [create_insert _ _ _ hnone]
        exact ih _ (List.mem_append_left _ hr)

/-- C5. The Alternative-Video Finder's acceptance gate is an OR with inclusive
boundaries: a candidate strictly below both thresholds is skipped (the loop
state is unchanged by it); a candidate meeting either threshold (and not
already present) is persisted; and both boundaries are attainable exactly in
the program's binary64 arithmetic — a concrete candidate pair realizes
channel similarity equal to the double 0.45 (word overlap 9/20, whose
correctly rounded quotient is the same double as the threshold literal), and
another realizes title overlap equal to the double 0.4 (2 of 5 tokens), each
single signal sufficing. -/
theorem C5_acceptance_gate :
    (∀ (u pid now : Nat) (db : Db) (s : ScoredAlt) (rest : List ScoredAlt),
      s.chSim < CHANNEL_SIM_THRESHOLD → s.titleOvr < TITLE_OVERLAP_THRESHOLD →
      altLoop u pid now db (s :: rest) = altLoop u pid now db rest) ∧
    (∀ (u pid now : Nat) (db : Db) (s : ScoredAlt) (rest : List ScoredAlt),
      (CHANNEL_SIM_THRESHOLD ≤ s.chSim ∨ TITLE_OVERLAP_THRESHOLD ≤ s.titleOvr) →
      VideoModel.existsVideo db.videos u s.alt.platform s.alt.externalId = false →
      ∃ r ∈ (altLoop u pid now db (s :: rest)).videos,
        tripleKey u s.alt.platform s.alt.externalId r = true) ∧
    channelSimilarity fixChan20 fixAlt45.channelName = CHANNEL_SIM_THRESHOLD ∧
    titleOverlapScore (strL "alpha bravo charlie delta echo") (strL "alpha bravo")
      = TITLE_OVERLAP_THRESHOLD := by
  refine ⟨?_, ?_, by decide, by decide⟩
  · intro u pid now db s rest h1 h2
    have hc : decide (s.chSim ≥ CHANNEL_SIM_THRESHOLD) = false :=
      decide_eq_false (not_le.mpr h1)
    have ht : decide (s.titleOvr ≥ TITLE_OVERLAP_THRESHOLD) = false :=
      decide_eq_false (not_le.mpr h2)
    simp only [altLoop]
    rw [hc, ht]
    rfl
  · intro u pid now db s rest hgate hex
    have hcond : (!decide (s.chSim ≥ CHANNEL_SIM_THRESHOLD) &&
        !decide (s.titleOvr ≥ TITLE_OVERLAP_THRESHOLD)) = false := by
      rcases hgate with h | h
      · rw [decide_eq_true h]
        rfl
      · rw [decide_eq_true h]
        simp
    have hnone : db.videos.find? (tripleKey u s.alt.platform s.alt.externalId) = none := by
      unfold VideoModel.existsVideo at hex
      cases hf : db.videos.find? (tripleKey u s.alt.platform s.alt.externalId) with
      | none => rfl
      | some v => rw [hf] at hex; simp at hex
    simp only [altLoop]
    rw [hcond]
    rw [if_neg (by simp), if_neg (by simp [hex])]
    rw [create_insert _ _ _ hnone]
    refine ⟨createdRow db
        { userId := u, platform := s.alt.platform, externalId := s.alt.externalId,
          url := altUrl s.alt, title := s.alt.title, channelName := some s.alt.channelName,
          thumbnailUrl := s.alt.thumbnailUrl, duration := s.alt.duration,
          parentId := some pid } now, ?_, by simp [tripleKey, createdRow]⟩
    exact altLoop_mem_mono u pid now rest _ _
      (List.mem_append_right _ (List.mem_singleton_self _))

/-- Witness for C5: the below-both candidate is skipped; the candidate at
channel similarity exactly the double 0.45 is accepted and persisted; the
candidate at title overlap exactly the double 0.4 is accepted and
persisted. -/
theorem C5_witness :
    altLoop 1 1 0 fixEmptyDb
        [scoreAlt (strL "qqqq") (strL "alpha bravo charlie delta echo") fixAltBelow] =
      altLoop 1 1 0 fixEmptyDb [] ∧
    (∃ r ∈ (altLoop 1 1 0 fixEmptyDb
        [scoreAlt fixChan20 (strL "alpha bravo charlie delta echo") fixAlt45]).videos,
      tripleKey 1 (scoreAlt fixChan20
          (strL "alpha bravo charlie delta echo") fixAlt45).alt.platform
        (scoreAlt fixChan20
          (strL "alpha bravo charlie delta echo") fixAlt45).alt.externalId r = true) ∧
    (∃ r ∈ (altLoop 1 1 0 fixEmptyDb
        [scoreAlt (strL "qqqq") (strL "alpha bravo charlie delta echo") fixAlt40]).videos,
      tripleKey 1 (scoreAlt (strL "qqqq")
          (strL "alpha bravo charlie delta echo") fixAlt40).alt.platform
        (scoreAlt (strL "qqqq")
          (strL "alpha bravo charlie delta echo") fixAlt40).alt.externalId r = true) := by
  refine ⟨?_, ?_, ?_⟩
  · exact C5_acceptance_gate.1 1 1 0 fixEmptyDb _ [] (by decide) (by decide)
  · exact C5_acceptance_gate.2.1 1 1 0 fixEmptyDb _ [] (Or.inl (by decide)) (by decide)
  · exact C5_acceptance_gate.2.1 1 1 0 fixEmptyDb _ [] (Or.inr (by decide)) (by decide)

/-- Lemma: the progress upsert never touches the `videos` table. -/
theorem upsertProgress_videos (db : Db) (u v : Nat) (p : Int) (n : Nat) :
    (upsertProgress db u v p n).videos = db.videos := by
  cases hf : findProgress db.progress u v <;> simp [upsertProgress, hf]

/-- Lemma: after the progress upsert for `(u, c)`, the first row found for
`(u, c)` carries the written position. -/
theorem findProgress_upsert_self (db : Db) (u c : Nat) (p : Int) (n : Nat) :
    ∃ pr, findProgress (upsertProgress db u c p n).progress u c = some pr ∧
      pr.userId = u ∧ pr.videoId = c ∧ pr.positionSeconds = p := by
  unfold upsertProgress
  cases hf : findProgress db.progress u c with
  | none =>
    refine ⟨⟨db.nextProgressId, u, c, p, n⟩, ?_, rfl, rfl, rfl⟩
    unfold findProgress at hf ⊢
    dsimp only
    rw [find_append_none hf]
    exact List.find?_cons_of_pos _ (by simp)
  | some r =>
    unfold findProgress at hf
    obtain ⟨pre, post, hsplit, hpre, hx⟩ := find_some_decomp hf
    have hru : r.userId = u ∧ r.videoId = c := by simpa [decide_eq_true_eq] using hx
    refine ⟨{ r with positionSeconds := p, updatedAt := n }, ?_, hru.1, hru.2, rfl⟩
    unfold findProgress
    dsimp only
    rw [hsplit, updateFirst_of_split post hpre hx]
    exact find_pre_mid post hpre (by simp [hru.1, hru.2])

/-- C2. Both the progress read path and the progress write path resolve the
requested id through `getCanonicalId` before touching the progress table:
whenever two ids resolve to the same canonical id (any two members of one
family, e.g. a child and its still-existing root), a position saved through
one id (by an owner of that row) is returned when progress is read through the
other id. -/
theorem C2_progress_roundtrip
    (db : Db) (u x y : Nat) (pos : ℚ) (now : Nat)
    (hown : (db.videos.find? (fun r => decide (r.id = x ∧ r.userId = u))).isSome = true)
    (hpos : ¬ pos < 0)
    (hcan : getCanonicalId db.videos x = getCanonicalId db.videos y) :
    ∃ pr, getProgressHandler (saveProgressHandler db u x pos now).2 u y = some pr ∧
      pr.positionSeconds = jsFloor pos ∧ pr.userId = u ∧
      pr.videoId = getCanonicalId db.videos x := by
  unfold saveProgressHandler
  rw [if_neg hpos, if_pos hown]
  dsimp only
  unfold getProgressHandler
  rw [upsertProgress_videos, ← hcan]
  obtain ⟨pr, hfind, hu, hv, hpos'⟩ :=
    findProgress_upsert_self db u (getCanonicalId db.videos x) (jsFloor pos) now
  exact ⟨pr, hfind, hpos', hu, hv⟩

/-- Lemma: a list whose `isEmpty` test fails is not nil. -/
theorem isEmpty_false_ne_nil {l : List Char} (h : ¬ l.isEmpty = true) : l ≠ [] := by
  cases l with
  | nil => exact absurd rfl h
  | cons a as => exact List.cons_ne_nil a as

/-- Lemma: a successful YouTube oEmbed strategy always carries a non-empty
title (the source rejects empty trimmed titles). -/
theorem tryOembedYt_title (env : YtEnv) (vid : List Char) (r : YouTubeVideoInfo)
    (h : tryOembedYt env vid = some r) : r.title ≠ [] := by
  unfold tryOembedYt at h
  rcases ho : env.oembed with _ | data
  · simp [ho] at h
  · simp only [ho] at h
    rcases ht : data.title with _ | t0
    · simp [ht] at h
    · simp only [ht] at h
      by_cases he : (trimChars t0).isEmpty = true
      · simp [he] at h
      · simp only [if_neg he] at h
        obtain rfl := Option.some.inj h
        exact isEmpty_false_ne_nil he

/-- Lemma: a successful VK API strategy carries a non-empty title. -/
theorem tryVkApi_title (env : VkEnv) (own vid : List Char) (r : VkVideoInfo)
    (h : tryVkApi env own vid = some r) : r.title ≠ [] := by
  unfold tryVkApi at h
  rcases htok : env.token with _ | tok
  · simp [htok] at h
  · simp only [htok] at h
    rcases ha : env.api with _ | data
    · simp [ha] at h
    · simp only [ha] at h
      by_cases herr : data.err = true
      · simp [herr] at h
      · simp only [if_neg herr] at h
        rcases hi : data.item with _ | item
        · simp [hi] at h
        · simp only [hi] at h
          rcases ht : item.title with _ | t
          · simp [ht] at h
          · simp only [ht] at h
            by_cases he : t.isEmpty = true
            · simp [he] at h
            · simp only [if_neg he] at h
              obtain rfl := Option.some.inj h
              exact decodeHtmlEntities_ne_nil (isEmpty_false_ne_nil he)

/-- Lemma: a successful VK oEmbed strategy carries a non-empty title. -/
theorem tryOembedVk_title (env : VkEnv) (own vid : List Char) (r : VkVideoInfo)
    (h : tryOembedVk env own vid = some r) : r.title ≠ [] := by
  unfold tryOembedVk at h
  rcases ho : env.oembed with _ | data
  · simp [ho] at h
  · simp only [ho] at h
    rcases ht : data.title with _ | t0
    · simp [ht] at h
    · simp only [ht] at h
      by_cases he : (trimChars t0).isEmpty = true
      · simp [he] at h
      · simp only [if_neg he] at h
        obtain rfl := Option.some.inj h
        exact decodeHtmlEntities_ne_nil (isEmpty_false_ne_nil he)

/-- Lemma: a successful mobile-scraping strategy carries a non-empty title. -/
theorem tryMobileScraping_title (env : VkEnv) (own vid : List Char) (r : VkVideoInfo)
    (h : tryMobileScraping env own vid = some r) : r.title ≠ [] := by
  unfold tryMobileScraping at h
  rcases hm : env.mobile with _ | page
  · simp [hm] at h
  · simp only [hm] at h
    rcases ht : ((page.ogTitleA <|> page.ogTitleB) <|> page.titleTag).map trimChars with _ | title
    · simp [ht] at h
    · simp only [ht] at h
      by_cases hg : (title.isEmpty || isGenericVkTitle title) = true
      · simp [hg] at h
      · simp only [if_neg hg] at h
        obtain rfl := Option.some.inj h
        have : ¬ title.isEmpty = true := fun he => hg (by rw [he]; rfl)
        exact decodeHtmlEntities_ne_nil (isEmpty_false_ne_nil this)

/-- Lemma: a successful `extractOgTitle` is non-empty. -/
theorem extractOgTitle_ne_nil (page : ScrapeData) (t : List Char)
    (h : extractOgTitle page = some t) : t ≠ [] := by
  unfold extractOgTitle at h
  rcases ht : (page.ogTitleA <|> page.ogTitleB).map trimChars with _ | title
  · simp [ht] at h
  · simp only [ht] at h
    by_cases he : title.isEmpty = true
    · simp [he] at h
    · simp only [if_neg he] at h
      by_cases hg : isGenericVkTitle title = true
      · simp [hg] at h
      · simp only [if_neg hg] at h
        obtain rfl := Option.some.inj h
        exact decodeHtmlEntities_ne_nil (isEmpty_false_ne_nil he)

/-- Lemma: a successful googlebot/desktop scraping strategy carries a
non-empty title. -/
theorem scrapeOgStrategy_title (pg : Option ScrapeData) (own vid : List Char)
    (r : VkVideoInfo) (h : scrapeOgStrategy pg own vid = some r) : r.title ≠ [] := by
  unfold scrapeOgStrategy at h
  rcases hp : pg with _ | page
  · simp [hp] at h
  · simp only [hp] at h
    rcases ht : extractOgTitle page with _ | t
    · simp [ht] at h
    · simp only [ht] at h
      obtain rfl := Option.some.inj h
      exact extractOgTitle_ne_nil page t ht

/-- C4 counterexample: the claim "the resolver always returns a non-empty
title" fails for `getRutubeInfo` when the oEmbed endpoint answers OK with a
present-but-empty `title` field — `??` only substitutes the default for an
absent field. -/
theorem C4_counterexample :
    (getRutubeInfo (some { title := some [] }) (strL "aa")).title = [] := by decide

/-- C4 (amended). The per-platform resolvers are total and never escalate a
strategy failure: the YouTube and VK resolvers always return a non-empty
title; the Rutube resolver's title is empty exactly when the oEmbed response
is present with a present-but-empty title (otherwise non-empty); and when
every strategy fails, each resolver returns its generic platform stub with
title "<Platform> Video" and null duration. -/
theorem C4_resolver_contract :
    (∀ (env : YtEnv) (vid : List Char), (getYouTubeInfo env vid).title ≠ []) ∧
    (∀ (env : VkEnv) (own vid : List Char), (getVkVideoInfo env own vid).title ≠ []) ∧
    (∀ (oe : Option OembedData) (vid : List Char),
      (getRutubeInfo oe vid).title = [] ↔ ∃ d, oe = some d ∧ d.title = some []) ∧
    (∀ (vid : List Char) (rs : List (Option InvidiousData)),
      getYouTubeInfo { oembed := none, invidious := rs } vid =
        { title := strL "YouTube Video", channelName := strL "YouTube",
          thumbnailUrl := ytThumbnailUrl vid, duration := none,
          instTag := strL "fallback" }) ∧
    (∀ vid : List Char,
      getRutubeInfo none vid =
        { title := strL "Rutube Video", channelName := strL "Unknown",
          thumbnailUrl := some (strL "https://rutube.ru/api/video/" ++ vid ++ strL "/thumbnail/"),
          duration := none, embedUrl := strL "https://rutube.ru/play/embed/" ++ vid,
          html := none }) ∧
    (∀ (env : VkEnv) (own vid : List Char),
      tryVkApi env own vid = none → tryOembedVk env own vid = none →
      tryMobileScraping env own vid = none → tryGooglebotScraping env own vid = none →
      tryHtmlScraping env own vid = none →
      getVkVideoInfo env own vid =
        { title := strL "VK Video", channelName := strL "VK Video", thumbnailUrl := none,
          duration := none, embedUrl := vkEmbedUrl own vid }) := by
  refine ⟨?_, ?_, ?_, ?_, ?_, ?_⟩
  · intro env vid
    unfold getYouTubeInfo
    cases h : tryOembedYt env vid with
    | none => exact (by decide : strL "YouTube Video" ≠ [])
    | some r => exact tryOembedYt_title env vid r h
  · intro env own vid
    unfold getVkVideoInfo
    cases h1 : tryVkApi env own vid with
    | some r => exact tryVkApi_title env own vid r h1
    | none =>
      cases h2 : tryOembedVk env own vid with
      | some r => exact tryOembedVk_title env own vid r h2
      | none =>
        cases h3 : tryMobileScraping env own vid with
        | some r => exact tryMobileScraping_title env own vid r h3
        | none =>
          cases h4 : tryGooglebotScraping env own vid with
          | some r => exact scrapeOgStrategy_title env.googlebot own vid r h4
          | none =>
            cases h5 : tryHtmlScraping env own vid with
            | some r => exact scrapeOgStrategy_title env.desktop own vid r h5
            | none => exact (by decide : strL "VK Video" ≠ [])
  · intro oe vid
    rcases oe with _ | d
    · constructor
      · intro h
        exact absurd h (by decide : strL "Rutube Video" ≠ [])
      · rintro ⟨d, hd, _⟩
        exact absurd hd (by simp)
    · rcases ht : d.title with _ | t
      · constructor
        · intro h
          simp only [getRutubeInfo, ht, Option.getD_none] at h
          exact absurd h (by decide)
        · rintro ⟨d2, hd2, ht2⟩
          obtain rfl := Option.some.inj hd2
          rw [ht] at ht2
          exact absurd ht2 (by simp)
      · constructor
        · intro h
          refine ⟨d, rfl, ?_⟩
          rw [ht]
          simp only [getRutubeInfo, ht, Option.getD_some] at h
          rw [h]
        · rintro ⟨d2, hd2, ht2⟩
          obtain rfl := Option.some.inj hd2
          rw [ht] at ht2
          obtain rfl := Option.some.inj ht2
          simp [getRutubeInfo, ht]
  · intro vid rs
    rfl
  · intro vid
    rfl
  · intro env own vid h1 h2 h3 h4 h5
    unfold getVkVideoInfo
    rw [h1, h2, h3, h4, h5]

/-- Witness for C4 on concrete inputs: a fully-failing VK environment yields
the VK stub, and the title-nonemptiness parts hold on a populated YouTube
environment. -/
theorem C4_witness :
    getVkVideoInfo { token := some (strL "t") } (strL "-1") (strL "2") =
      { title := strL "VK Video", channelName := strL "VK Video", thumbnailUrl := none,
        duration := none, embedUrl := vkEmbedUrl (strL "-1") (strL "2") } ∧
    (getYouTubeInfo { oembed := some { title := some (strL " Hello ") } }
        (strL "abcdefghijk")).title ≠ [] := by
  constructor
  · exact C4_resolver_contract.2.2.2.2.2 { token := some (strL "t") } (strL "-1") (strL "2")
      rfl rfl rfl rfl rfl
  · exact C4_resolver_contract.1 { oembed := some { title := some (strL " Hello ") } }
      (strL "abcdefghijk")

/-- Witness for C2 on the fixture family: user 7 saves position 20 through the
child id 2; reading through the root id 1 returns a row holding floor(20) = 20
under the canonical id 1. -/
theorem C2_witness :
    ∃ pr, getProgressHandler (saveProgressHandler fixDb 7 2 20 3).2 7 1 = some pr ∧
      pr.positionSeconds = jsFloor 20 ∧ pr.userId = 7 ∧
      pr.videoId = getCanonicalId fixDb.videos 2 :=
  C2_progress_roundtrip fixDb 7 2 1 20 3 (by decide) (by decide) (by decide)

-- ───────────────────────── parser lemmas ─────────────────────────

theorem dropLit_eq {lit l r : List Char} : dropLit lit l = some r ↔ l = lit ++ r := by
  induction lit generalizing l with
  | nil => simp [dropLit]
  | cons a as ih =>
    cases l with
    | nil => simp [dropLit]
    | cons b bs =>
      by_cases hab : a = b
      · subst hab
        rw [dropLit, if_pos rfl]
        simp [ih]
      · rw [dropLit, if_neg hab]
        constructor
        · intro h
          exact Option.noConfusion h
        · intro h
          injection h with h1 h2
          exact absurd h1.symm hab

theorem dropLit_self (lit r : List Char) : dropLit lit (lit ++ r) = some r :=
  dropLit_eq.mpr rfl

theorem dropAnyLit_some {lits : List (List Char)} {l r : List Char}
    (h : dropAnyLit lits l = some r) : ∃ lit ∈ lits, dropLit lit l = some r := by
  induction lits with
  | nil => simp [dropAnyLit] at h
  | cons lit lits ih =>
    rw [dropAnyLit] at h
    cases hd : dropLit lit l with
    | some r2 =>
      rw [hd] at h
      obtain rfl := Option.some.inj h
      exact ⟨lit, by simp, hd⟩
    | none =>
      rw [hd] at h
      obtain ⟨lit2, hm, hd2⟩ := ih h
      exact ⟨lit2, by simp [hm], hd2⟩

theorem takeCount_append {p : Char → Bool} {l rest : List Char}
    (h : ∀ c ∈ l, p c = true) :
    takeCount p l.length (l ++ rest) = some (l, rest) := by
  induction l with
  | nil => rfl
  | cons c cs ih =>
    show takeCount p (cs.length + 1) (c :: (cs ++ rest)) = _
    rw [takeCount, if_pos (h c (by simp)), ih fun x hx => h x (by simp [hx])]

theorem scan_cons_none {α} {f : List Char → Option α} {c : Char} {l : List Char}
    (h : f (c :: l) = none) : scan f (c :: l) = scan f l := by
  rw [scan, h]

theorem scan_eq_some_head {α} {f : List Char → Option α} {l : List Char} {r : α}
    (hne : l ≠ []) (h : f l = some r) : scan f l = some r := by
  cases l with
  | nil => exact absurd rfl hne
  | cons c cs => rw [scan, h]

theorem scan_append_none {α} {f : List Char → Option α} (pre l : List Char)
    (h : ∀ i, i < pre.length → f (pre.drop i ++ l) = none) :
    scan f (pre ++ l) = scan f l := by
  induction pre with
  | nil => rfl
  | cons c cs ih =>
    have h0 : f (c :: (cs ++ l)) = none := by simpa using h 0 (by simp)
    rw [List.cons_append, scan_cons_none h0]
    exact ih fun i hi => by simpa using h (i + 1) (by simpa using Nat.succ_lt_succ hi)

theorem scan_eq_none {α} {f : List Char → Option α} {l : List Char}
    (h : ∀ t, t <:+ l → f t = none) : scan f l = none := by
  induction l with
  | nil =>
    rw [scan]
    exact h [] (List.suffix_refl [])
  | cons c cs ih =>
    rw [scan_cons_none (h _ (List.suffix_refl _))]
    exact ih fun t ht => h t (ht.trans (List.suffix_cons c cs))

theorem suffix_append_cases {t pre l : List Char} (h : t <:+ pre ++ l) :
    (∃ i, i < pre.length ∧ t = pre.drop i ++ l) ∨ t <:+ l := by
  induction pre with
  | nil => exact Or.inr (by simpa using h)
  | cons c cs ih =>
    rw [List.cons_append] at h
    rcases List.suffix_cons_iff.mp h with rfl | h2
    · exact Or.inl ⟨0, by simp, by simp⟩
    · rcases ih h2 with ⟨i, hi, rfl⟩ | hr
      · exact Or.inl ⟨i + 1, by simpa using Nat.succ_lt_succ hi, by simp⟩
      · exact Or.inr hr

/-- Lemma: the first YouTube pattern cannot match anywhere inside a string of
id-class characters — its literals all contain a dot. -/
theorem ytPat1At_none_of_idChars {t : List Char}
    (h : ∀ c ∈ t, isIdChar c = true) : ytPat1At t = none := by
  unfold ytPat1At
  cases hd : dropAnyLit
      [strL "youtube.com/watch?v=", strL "youtu.be/", strL "youtube.com/embed/"] t with
  | none => rfl
  | some rest =>
    obtain ⟨lit, hm, hdl⟩ := dropAnyLit_some hd
    have ht : t = lit ++ rest := dropLit_eq.mp hdl
    have hdot : ('.' : Char) ∈ t := by
      rw [ht]
      refine List.mem_append_left _ ?_
      fin_cases hm <;> decide
    exact absurd (h '.' hdot) (by decide)

/-- Lemma: the shorts pattern cannot match inside a string of id-class
characters. -/
theorem ytPat2At_none_of_idChars {t : List Char}
    (h : ∀ c ∈ t, isIdChar c = true) : ytPat2At t = none := by
  unfold ytPat2At
  cases hd : dropLit (strL "youtube.com/shorts/") t with
  | none => rfl
  | some rest =>
    have ht := dropLit_eq.mp hd
    have hdot : ('.' : Char) ∈ t := by
      rw [ht]
      exact List.mem_append_left _ (by decide)
    exact absurd (h '.' hdot) (by decide)

/-- Lemma: no VK pattern can match inside a URL tail (digits, sign,
underscore, `&id=`) — all three literals contain the letter `v`. -/
theorem vkPats_none_of_tail {t : List Char}
    (h : ∀ c ∈ t, vkTailChar c = true) :
    vkPat1At t = none ∧ vkPat2At t = none ∧ vkPat3At t = none := by
  refine ⟨?_, ?_, ?_⟩
  · unfold vkPat1At
    cases hd : dropLit (strL "vk.com/video") t with
    | none => rfl
    | some rest =>
      have ht := dropLit_eq.mp hd
      have hv : ('v' : Char) ∈ t := by
        rw [ht]
        exact List.mem_append_left _ (by decide)
      exact absurd (h 'v' hv) (by decide)
  · unfold vkPat2At
    cases hd : dropLit (strL "vk.com/video_ext.php?oid=") t with
    | none => rfl
    | some rest =>
      have ht := dropLit_eq.mp hd
      have hv : ('v' : Char) ∈ t := by
        rw [ht]
        exact List.mem_append_left _ (by decide)
      exact absurd (h 'v' hv) (by decide)
  · unfold vkPat3At
    cases hd : dropLit (strL "vkvideo.ru/video") t with
    | none => rfl
    | some rest =>
      have ht := dropLit_eq.mp hd
      have hv : ('v' : Char) ∈ t := by
        rw [ht]
        exact List.mem_append_left _ (by decide)
      exact absurd (h 'v' hv) (by decide)

theorem digitsRun_append_stop {ds rest : List Char} {c : Char}
    (hds : ∀ x ∈ ds, x.isDigit = true) (hc : c.isDigit = false) :
    digitsRun (ds ++ c :: rest) = (ds, c :: rest) := by
  induction ds with
  | nil => simp [digitsRun, hc]
  | cons d ds ih =>
    rw [List.cons_append, digitsRun, if_pos (hds d (by simp)),
      ih fun x hx => hds x (by simp [hx])]

theorem digitsRun_all {ds : List Char} (hds : ∀ x ∈ ds, x.isDigit = true) :
    digitsRun ds = (ds, []) := by
  induction ds with
  | nil => rfl
  | cons d ds ih =>
    rw [digitsRun, if_pos (hds d (by simp)), ih fun x hx => hds x (by simp [hx])]

/-- Lemma: `(-?\d+)` on a signed digit run followed by a non-digit stop
character captures the signed run. -/
theorem signedDigits_group {sgn own : List Char} {c : Char} {rest : List Char}
    (hsgn : sgn = [] ∨ sgn = ['-']) (hne : own ≠ [])
    (hdig : ∀ x ∈ own, x.isDigit = true) (hc : c.isDigit = false) :
    signedDigits ((sgn ++ own) ++ c :: rest) = some (sgn ++ own, c :: rest) := by
  rcases hsgn with rfl | rfl
  · cases own with
    | nil => exact absurd rfl hne
    | cons d ds =>
      have hd : d.isDigit = true := hdig d (by simp)
      have hdne : ¬ ((d :: ds ++ c :: rest) : List Char).head? = some '-' := by
        simp only [List.cons_append, List.head?_cons, Option.some.injEq]
        intro hdd
        rw [hdd] at hd
        exact absurd hd (by decide)
      rw [List.nil_append, signedDigits, if_neg hdne,
        digitsRun_append_stop hdig hc]
  · cases own with
    | nil => exact absurd rfl hne
    | cons d ds =>
      rw [signedDigits, if_pos (by simp)]
      show (match digitsRun ((d :: ds) ++ c :: rest) with
        | ([], _) => none
        | (ds2, rest2) => some ('-' :: ds2, rest2)) = _
      rw [digitsRun_append_stop hdig hc]
      rfl

theorem scan_cons_some {α} {f : List Char → Option α} {c : Char} {l : List Char} {r : α}
    (h : f (c :: l) = some r) : scan f (c :: l) = some r := by
  rw [scan, h]

theorem takeCount_id {id : List Char} (hlen : id.length = 11)
    (hall : ∀ c ∈ id, isIdChar c = true) : takeCount isIdChar 11 id = some (id, []) := by
  rw [← hlen]
  have h : takeCount isIdChar id.length (id ++ []) = some (id, []) := takeCount_append hall
  rwa [List.append_nil] at h

/-- Lemma: the watch-form literal followed by a valid 11-character id matches
pattern 1 with that id as the capture. -/
theorem ytPat1At_watch {id : List Char} (hlen : id.length = 11)
    (hall : ∀ c ∈ id, isIdChar c = true) :
    ytPat1At (strL "youtube.com/watch?v=" ++ id) = some id := by
  show (takeCount isIdChar 11 id).map Prod.fst = some id
  rw [takeCount_id hlen hall]
  rfl

/-- Lemma: the short-link literal matches pattern 1 (second alternative). -/
theorem ytPat1At_be {id : List Char} (hlen : id.length = 11)
    (hall : ∀ c ∈ id, isIdChar c = true) :
    ytPat1At (strL "youtu.be/" ++ id) = some id := by
  show (takeCount isIdChar 11 id).map Prod.fst = some id
  rw [takeCount_id hlen hall]
  rfl

/-- Lemma: the embed-form literal matches pattern 1 (third alternative). -/
theorem ytPat1At_embed {id : List Char} (hlen : id.length = 11)
    (hall : ∀ c ∈ id, isIdChar c = true) :
    ytPat1At (strL "youtube.com/embed/" ++ id) = some id := by
  show (takeCount isIdChar 11 id).map Prod.fst = some id
  rw [takeCount_id hlen hall]
  rfl

/-- Lemma: the shorts-form literal matches pattern 2. -/
theorem ytPat2At_shorts {id : List Char} (hlen : id.length = 11)
    (hall : ∀ c ∈ id, isIdChar c = true) :
    ytPat2At (strL "youtube.com/shorts/" ++ id) = some id := by
  show (takeCount isIdChar 11 id).map Prod.fst = some id
  rw [takeCount_id hlen hall]
  rfl

/-- Lemma: VK pattern 1 on its literal followed by the signed owner group, the
underscore, and the trailing content group. -/
theorem vkPat1At_group {sgn own vid : List Char}
    (hsgn : sgn = [] ∨ sgn = ['-']) (hone : own ≠ []) (hvne : vid ≠ [])
    (hdo : ∀ x ∈ own, x.isDigit = true) (hdv : ∀ x ∈ vid, x.isDigit = true) :
    vkPat1At (strL "vk.com/video" ++ ((sgn ++ own) ++ '_' :: vid)) =
      some (sgn ++ own, vid) := by
  cases vid with
  | nil => exact absurd rfl hvne
  | cons d ds =>
    unfold vkPat1At
    simp only [dropLit_self]
    simp only [signedDigits_group (c := '_') hsgn hone hdo (by decide)]
    simp only [digitsRun_all hdv]

/-- Lemma: VK pattern 3 (`vkvideo.ru`) on its literal and the two groups. -/
theorem vkPat3At_group {sgn own vid : List Char}
    (hsgn : sgn = [] ∨ sgn = ['-']) (hone : own ≠ []) (hvne : vid ≠ [])
    (hdo : ∀ x ∈ own, x.isDigit = true) (hdv : ∀ x ∈ vid, x.isDigit = true) :
    vkPat3At (strL "vkvideo.ru/video" ++ ((sgn ++ own) ++ '_' :: vid)) =
      some (sgn ++ own, vid) := by
  cases vid with
  | nil => exact absurd rfl hvne
  | cons d ds =>
    unfold vkPat3At
    simp only [dropLit_self]
    simp only [signedDigits_group (c := '_') hsgn hone hdo (by decide)]
    simp only [digitsRun_all hdv]

/-- Lemma: VK pattern 2 (`video_ext.php`) on its literal, the signed owner
group, the `&id=` separator and the trailing content group. -/
theorem vkPat2At_group {sgn own vid : List Char}
    (hsgn : sgn = [] ∨ sgn = ['-']) (hone : own ≠ []) (hvne : vid ≠ [])
    (hdo : ∀ x ∈ own, x.isDigit = true) (hdv : ∀ x ∈ vid, x.isDigit = true) :
    vkPat2At (strL "vk.com/video_ext.php?oid=" ++ ((sgn ++ own) ++ '&' :: (strL "id=" ++ vid))) =
      some (sgn ++ own, vid) := by
  cases vid with
  | nil => exact absurd rfl hvne
  | cons d ds =>
    unfold vkPat2At
    simp only [dropLit_self]
    simp only [signedDigits_group (c := '&') hsgn hone hdo (by decide)]
    simp only [show dropLit (strL "&id=") ('&' :: (strL "id=" ++ (d :: ds))) = some (d :: ds)
      from rfl]
    simp only [digitsRun_all hdv]

/-- Lemma: every character of a VK URL tail built from the two digit groups
joined by an underscore lies in the tail character set. -/
theorem vkTail_underscore {sgn own vid : List Char}
    (hsgn : sgn = [] ∨ sgn = ['-'])
    (hdo : ∀ x ∈ own, x.isDigit = true) (hdv : ∀ x ∈ vid, x.isDigit = true) :
    ∀ c ∈ (sgn ++ own) ++ '_' :: vid, vkTailChar c = true := by
  intro c hc
  rcases List.mem_append.mp hc with h1 | h2
  · rcases List.mem_append.mp h1 with hs | ho
    · rcases hsgn with rfl | rfl
      · simp at hs
      · have : c = '-' := by simpa using hs
        subst this
        decide
    · simp [vkTailChar, hdo c ho]
  · rcases List.mem_cons.mp h2 with rfl | h3
    · decide
    · simp [vkTailChar, hdv c h3]

/-- Lemma: every character of the `&id=`-joined VK URL tail lies in the tail
character set. -/
theorem vkTail_ampersand {sgn own vid : List Char}
    (hsgn : sgn = [] ∨ sgn = ['-'])
    (hdo : ∀ x ∈ own, x.isDigit = true) (hdv : ∀ x ∈ vid, x.isDigit = true) :
    ∀ c ∈ (sgn ++ own) ++ '&' :: (strL "id=" ++ vid), vkTailChar c = true := by
  intro c hc
  rcases List.mem_append.mp hc with h1 | h2
  · rcases List.mem_append.mp h1 with hs | ho
    · rcases hsgn with rfl | rfl
      · simp at hs
      · have : c = '-' := by simpa using hs
        subst this
        decide
    · simp [vkTailChar, hdo c ho]
  · rcases List.mem_cons.mp h2 with rfl | h3
    · decide
    · rcases List.mem_append.mp h3 with hi | hv
      · have : c ∈ ['i', 'd', '='] := hi
        fin_cases this <;> decide
      · simp [vkTailChar, hdv c hv]

/-- C7. URL-shape normalization: all four recognized YouTube forms
(`watch?v=`, `youtu.be/`, `embed/`, `shorts/`) carrying the same valid
11-character id parse to exactly that id (and the same canonical watch URL);
all three recognized VK forms parse to the composite external id built by
rejoining the two capture groups as `ownerId_videoId`. -/
theorem C7_url_normalization :
    (∀ id : List Char, id.length = 11 → (∀ c ∈ id, isIdChar c = true) →
      parseYouTubeUrl (strL "https://youtube.com/watch?v=" ++ id) =
        some ⟨.youtube, id, strL "https://youtube.com/watch?v=" ++ id⟩ ∧
      parseYouTubeUrl (strL "https://youtu.be/" ++ id) =
        some ⟨.youtube, id, strL "https://youtube.com/watch?v=" ++ id⟩ ∧
      parseYouTubeUrl (strL "https://youtube.com/embed/" ++ id) =
        some ⟨.youtube, id, strL "https://youtube.com/watch?v=" ++ id⟩ ∧
      parseYouTubeUrl (strL "https://youtube.com/shorts/" ++ id) =
        some ⟨.youtube, id, strL "https://youtube.com/watch?v=" ++ id⟩) ∧
    (∀ sgn own vid : List Char, (sgn = [] ∨ sgn = ['-']) → own ≠ [] → vid ≠ [] →
      (∀ x ∈ own, x.isDigit = true) → (∀ x ∈ vid, x.isDigit = true) →
      parseVkVideoUrl (strL "https://vk.com/video" ++ ((sgn ++ own) ++ '_' :: vid)) =
        some (vkResult (sgn ++ own) vid) ∧
      parseVkVideoUrl (strL "https://vk.com/video_ext.php?oid=" ++
          ((sgn ++ own) ++ '&' :: (strL "id=" ++ vid))) =
        some (vkResult (sgn ++ own) vid) ∧
      parseVkVideoUrl (strL "https://vkvideo.ru/video" ++ ((sgn ++ own) ++ '_' :: vid)) =
        some (vkResult (sgn ++ own) vid)) := by
  constructor
  · intro id hlen hall
    refine ⟨?_, ?_, ?_, ?_⟩
    · unfold parseYouTubeUrl
      have hs : scan ytPat1At (strL "https://youtube.com/watch?v=" ++ id) = some id := by
        show scan ytPat1At (strL "https://" ++ (strL "youtube.com/watch?v=" ++ id)) = some id
        rw [scan_append_none]
        · exact scan_cons_some (ytPat1At_watch hlen hall)
        · intro i hi
          have hi8 : i < 8 := hi
          interval_cases i <;> rfl
      rw [hs]
    · unfold parseYouTubeUrl
      have hs : scan ytPat1At (strL "https://youtu.be/" ++ id) = some id := by
        show scan ytPat1At (strL "https://" ++ (strL "youtu.be/" ++ id)) = some id
        rw [scan_append_none]
        · exact scan_cons_some (ytPat1At_be hlen hall)
        · intro i hi
          have hi8 : i < 8 := hi
          interval_cases i <;> rfl
      rw [hs]
    · unfold parseYouTubeUrl
      have hs : scan ytPat1At (strL "https://youtube.com/embed/" ++ id) = some id := by
        show scan ytPat1At (strL "https://" ++ (strL "youtube.com/embed/" ++ id)) = some id
        rw [scan_append_none]
        · exact scan_cons_some (ytPat1At_embed hlen hall)
        · intro i hi
          have hi8 : i < 8 := hi
          interval_cases i <;> rfl
      rw [hs]
    · unfold parseYouTubeUrl
      have h1 : scan ytPat1At (strL "https://youtube.com/shorts/" ++ id) = none := by
        apply scan_eq_none
        intro t ht
        rcases suffix_append_cases ht with ⟨i, hi, rfl⟩ | hsuf
        · have hi27 : i < 27 := hi
          interval_cases i <;> rfl
        · exact ytPat1At_none_of_idChars fun c hc => hall c (hsuf.subset hc)
      have h2 : scan ytPat2At (strL "https://youtube.com/shorts/" ++ id) = some id := by
        show scan ytPat2At (strL "https://" ++ (strL "youtube.com/shorts/" ++ id)) = some id
        rw [scan_append_none]
        · exact scan_cons_some (ytPat2At_shorts hlen hall)
        · intro i hi
          have hi8 : i < 8 := hi
          interval_cases i <;> rfl
      rw [h1, h2]
  · intro sgn own vid hsgn hone hvne hdo hdv
    refine ⟨?_, ?_, ?_⟩
    · unfold parseVkVideoUrl
      have hs : scan vkPat1At (strL "https://vk.com/video" ++ ((sgn ++ own) ++ '_' :: vid)) =
          some (sgn ++ own, vid) := by
        show scan vkPat1At
          (strL "https://" ++ (strL "vk.com/video" ++ ((sgn ++ own) ++ '_' :: vid))) = _
        rw [scan_append_none]
        · exact scan_cons_some (vkPat1At_group hsgn hone hvne hdo hdv)
        · intro i hi
          have hi8 : i < 8 := hi
          interval_cases i <;> rfl
      rw [hs]
    · unfold parseVkVideoUrl
      have h1 : scan vkPat1At (strL "https://vk.com/video_ext.php?oid=" ++
          ((sgn ++ own) ++ '&' :: (strL "id=" ++ vid))) = none := by
        apply scan_eq_none
        intro t ht
        rcases suffix_append_cases ht with ⟨i, hi, rfl⟩ | hsuf
        · have hi33 : i < 33 := hi
          interval_cases i <;> rfl
        · exact (vkPats_none_of_tail fun c hc =>
            vkTail_ampersand hsgn hdo hdv c (hsuf.subset hc)).1
      have h2 : scan vkPat2At (strL "https://vk.com/video_ext.php?oid=" ++
          ((sgn ++ own) ++ '&' :: (strL "id=" ++ vid))) = some (sgn ++ own, vid) := by
        show scan vkPat2At (strL "https://" ++ (strL "vk.com/video_ext.php?oid=" ++
          ((sgn ++ own) ++ '&' :: (strL "id=" ++ vid)))) = _
        rw [scan_append_none]
        · exact scan_cons_some (vkPat2At_group hsgn hone hvne hdo hdv)
        · intro i hi
          have hi8 : i < 8 := hi
          interval_cases i <;> rfl
      rw [h1, h2]
    · unfold parseVkVideoUrl
      have h1 : scan vkPat1At (strL "https://vkvideo.ru/video" ++
          ((sgn ++ own) ++ '_' :: vid)) = none := by
        apply scan_eq_none
        intro t ht
        rcases suffix_append_cases ht with ⟨i, hi, rfl⟩ | hsuf
        · have hi24 : i < 24 := hi
          interval_cases i <;> rfl
        · exact (vkPats_none_of_tail fun c hc =>
            vkTail_underscore hsgn hdo hdv c (hsuf.subset hc)).1
      have h2 : scan vkPat2At (strL "https://vkvideo.ru/video" ++
          ((sgn ++ own) ++ '_' :: vid)) = none := by
        apply scan_eq_none
        intro t ht
        rcases suffix_append_cases ht with ⟨i, hi, rfl⟩ | hsuf
        · have hi24 : i < 24 := hi
          interval_cases i <;> rfl
        · exact (vkPats_none_of_tail fun c hc =>
            vkTail_underscore hsgn hdo hdv c (hsuf.subset hc)).2.1
      have h3 : scan vkPat3At (strL "https://vkvideo.ru/video" ++
          ((sgn ++ own) ++ '_' :: vid)) = some (sgn ++ own, vid) := by
        show scan vkPat3At (strL "https://" ++ (strL "vkvideo.ru/video" ++
          ((sgn ++ own) ++ '_' :: vid))) = _
        rw [scan_append_none]
        · exact scan_cons_some (vkPat3At_group hsgn hone hvne hdo hdv)
        · intro i hi
          have hi8 : i < 8 := hi
          interval_cases i <;> rfl
      rw [h1, h2, h3]

/-- Witness for C7 at a concrete id and a concrete signed owner/content pair:
all four YouTube forms parse to `dQw4w9WgXcQ` and all three VK forms parse to
`-123_456`. -/
theorem C7_witness :
    (parseYouTubeUrl (strL "https://youtube.com/watch?v=" ++ strL "dQw4w9WgXcQ") =
      some ⟨.youtube, strL "dQw4w9WgXcQ", strL "https://youtube.com/watch?v=" ++ strL "dQw4w9WgXcQ"⟩ ∧
     parseYouTubeUrl (strL "https://youtu.be/" ++ strL "dQw4w9WgXcQ") =
      some ⟨.youtube, strL "dQw4w9WgXcQ", strL "https://youtube.com/watch?v=" ++ strL "dQw4w9WgXcQ"⟩ ∧
     parseYouTubeUrl (strL "https://youtube.com/embed/" ++ strL "dQw4w9WgXcQ") =
      some ⟨.youtube, strL "dQw4w9WgXcQ", strL "https://youtube.com/watch?v=" ++ strL "dQw4w9WgXcQ"⟩ ∧
     parseYouTubeUrl (strL "https://youtube.com/shorts/" ++ strL "dQw4w9WgXcQ") =
      some ⟨.youtube, strL "dQw4w9WgXcQ", strL "https://youtube.com/watch?v=" ++ strL "dQw4w9WgXcQ"⟩) ∧
    (parseVkVideoUrl (strL "https://vk.com/video" ++ ((['-'] ++ strL "123") ++ '_' :: strL "456")) =
      some (vkResult (['-'] ++ strL "123") (strL "456")) ∧
     parseVkVideoUrl (strL "https://vk.com/video_ext.php?oid=" ++
        ((['-'] ++ strL "123") ++ '&' :: (strL "id=" ++ strL "456"))) =
      some (vkResult (['-'] ++ strL "123") (strL "456")) ∧
     parseVkVideoUrl (strL "https://vkvideo.ru/video" ++ ((['-'] ++ strL "123") ++ '_' :: strL "456")) =
      some (vkResult (['-'] ++ strL "123") (strL "456"))) :=
  ⟨C7_url_normalization.1 (strL "dQw4w9WgXcQ") (by decide) (by decide),
   C7_url_normalization.2 ['-'] (strL "123") (strL "456") (Or.inr rfl) (by decide)
     (by decide) (by decide) (by decide)⟩

/-- C8 counterexample: parser inputs CAN be ambiguous across platforms — the
regexes match anywhere in the string, so a string containing both a YouTube
and a VK video URL is matched by both platform parsers. -/
theorem C8_counterexample :
    (parseYouTubeUrl (strL "youtube.com/watch?v=abcdefghijk vk.com/video1_2")).isSome = true ∧
    (parseVkVideoUrl (strL "youtube.com/watch?v=abcdefghijk vk.com/video1_2")).isSome = true := by
  constructor
  · decide
  · decide

/-- C8 (amended). For inputs matched by at most one platform's pattern set,
the result of `parseVideoUrl` does not depend on the priority order in which
the platform parsers are tried (shown against the fully reversed order); and
for every input, `parseVideoUrl` returns `none` exactly when no platform
pattern matches — a null result, not an error. -/
theorem C8_dispatch :
    (∀ url : List Char,
      ((parseYouTubeUrl url).isSome = true →
        parseRutubeUrl url = none ∧ parseVkVideoUrl url = none) →
      ((parseRutubeUrl url).isSome = true →
        parseVkVideoUrl url = none ∧ parseYouTubeUrl url = none) →
      ((parseVkVideoUrl url).isSome = true →
        parseYouTubeUrl url = none ∧ parseRutubeUrl url = none) →
      parseVideoUrlRev url = parseVideoUrl url) ∧
    (∀ url : List Char,
      parseVideoUrl url = none ↔
        parseYouTubeUrl url = none ∧ parseRutubeUrl url = none ∧
        parseVkVideoUrl url = none) := by
  constructor
  · intro url h1 h2 h3
    cases hy : parseYouTubeUrl url with
    | some a =>
      obtain ⟨hrn, hvn⟩ := h1 (by rw [hy]; rfl)
      simp [parseVideoUrl, parseVideoUrlRev, hy, hrn, hvn]
    | none =>
      cases hr : parseRutubeUrl url with
      | some b =>
        obtain ⟨hvn, -⟩ := h2 (by rw [hr]; rfl)
        simp [parseVideoUrl, parseVideoUrlRev, hy, hr, hvn]
      | none =>
        cases hv : parseVkVideoUrl url with
        | some c => simp [parseVideoUrl, parseVideoUrlRev, hy, hr, hv]
        | none => simp [parseVideoUrl, parseVideoUrlRev, hy, hr, hv]
  · intro url
    cases hy : parseYouTubeUrl url with
    | some a => simp [parseVideoUrl, hy]
    | none =>
      cases hr : parseRutubeUrl url with
      | some b => simp [parseVideoUrl, hy, hr]
      | none =>
        cases hv : parseVkVideoUrl url with
        | some c => simp [parseVideoUrl, hy, hr, hv]
        | none => simp [parseVideoUrl, hy, hr, hv]

/-- Witness for C8: on an unambiguous Rutube link the reversed-priority
dispatcher agrees with the source's dispatcher. -/
theorem C8_witness :
    parseVideoUrlRev (strL "https://rutube.ru/video/0123456789abcdef0123456789abcdef/") =
      parseVideoUrl (strL "https://rutube.ru/video/0123456789abcdef0123456789abcdef/") :=
  C8_dispatch.1 (strL "https://rutube.ru/video/0123456789abcdef0123456789abcdef/")
    (by decide) (by decide) (by decide)

end Aito
